import Mathlib

/-!
Verification development for the `@fastly/esi` repository (an Edge Side
Includes streaming transformer written in TypeScript).

Strings of the source language are modelled as `List Char`; JavaScript string
primitives (`replaceAll`, `indexOf`, `slice`, ...) are embedded as executable
Lean functions on `List Char`.  Where a JS loop is not structurally recursive
the embedding uses an explicit fuel argument whose initial value (derived from
the input length) always suffices, keeping every definition executable.
-/

namespace CJEsi

/-- Characters that are awkward to write as literals. -/
def squote : Char := Char.ofNat 39

def bslash : Char := Char.ofNat 92

def spaceChar : Char := Char.ofNat 32

def lbraceChar : Char := Char.ofNat 123

def rbraceChar : Char := Char.ofNat 125

theorem bslash_ne_squote : bslash ≠ squote := by decide

/-- Convert a Lean string literal to the `List Char` model. -/
def strL (s : String) : List Char := s.data

/-- JS `String.prototype.replaceAll(pat, rep)`: left-to-right, non-overlapping
replacement of every occurrence of `pat` (a plain string, never empty in this
code base) by `rep`.  Fueled auxiliary; one unit of fuel per consumed
character position, so `s.length` fuel always suffices. -/
def jsReplaceAllAux (pat rep : List Char) : Nat → List Char → List Char
  | 0, s => s
  | _ + 1, [] => []
  | fuel + 1, c :: cs =>
    if pat ≠ [] ∧ pat.isPrefixOf (c :: cs) then
      rep ++ jsReplaceAllAux pat rep fuel (List.drop (pat.length - 1) cs)
    else
      c :: jsReplaceAllAux pat rep fuel cs

def jsReplaceAll (pat rep s : List Char) : List Char :=
  jsReplaceAllAux pat rep s.length s

/-- `quoteString` from `src/util.ts`:
`"'" + input.replaceAll("'", "\\'") + "'"`. -/
def quoteString (input : List Char) : List Char :=
  squote :: jsReplaceAll [squote] [bslash, squote] input ++ [squote]

/-- The scan loop of `unquoteString`: JS walks every occurrence of a single
quote in the inner string via `indexOf` and requires `str.charAt(p-1)` to be a
backslash (`charAt(-1)` is the empty string, so a leading quote fails too).
`prev` is the character before the current position, `none` at the start. -/
def hasUnescapedQuote : Option Char → List Char → Bool
  | _, [] => false
  | prev, c :: cs =>
    if c = squote ∧ prev ≠ some bslash then true
    else hasUnescapedQuote (some c) cs

/-- `unquoteString` from `src/util.ts`.  Throws (modelled as `.error`) unless
the input starts and ends with a single quote and every inner quote is
preceded by a backslash; returns `input.slice(1, -1).replaceAll("\\'", "'")`. -/
def unquoteString (input : List Char) : Except (List Char) (List Char) :=
  if input.head? = some squote ∧ input.getLast? = some squote then
    -- str = input.slice(1, input.length - 1); for length 1 this is empty.
    let str := (input.drop 1).dropLast
    if hasUnescapedQuote none str then
      .error (strL "unquoteString input should not contain unescaped single quotes")
    else
      .ok (jsReplaceAll [bslash, squote] [squote] str)
  else
    .error (strL "unquoteString input should start and end with single quote")

/-! Clean structural forms of the two `replaceAll` instances used by
`quoteString`/`unquoteString`, used to reason about the fueled definitions. -/

def escQ : List Char → List Char
  | [] => []
  | c :: cs => if c = squote then bslash :: squote :: escQ cs else c :: escQ cs

def unescQ : List Char → List Char
  | [] => []
  | [c] => [c]
  | c :: d :: cs =>
    if c = bslash ∧ d = squote then squote :: unescQ cs
    else c :: unescQ (d :: cs)

theorem jsReplaceAllAux_nil (pat rep : List Char) (fuel : Nat) :
    jsReplaceAllAux pat rep fuel [] = [] := by
  cases fuel <;> rfl

theorem jsReplaceAllAux_cons (pat rep : List Char) (fuel : Nat) (c : Char)
    (cs : List Char) :
    jsReplaceAllAux pat rep (fuel + 1) (c :: cs) =
      if pat ≠ [] ∧ pat.isPrefixOf (c :: cs) then
        rep ++ jsReplaceAllAux pat rep fuel (List.drop (pat.length - 1) cs)
      else
        c :: jsReplaceAllAux pat rep fuel cs := rfl

theorem escQ_cons (c : Char) (cs : List Char) :
    escQ (c :: cs) =
      if c = squote then bslash :: squote :: escQ cs else c :: escQ cs := rfl

theorem unescQ_cons_cons (c d : Char) (cs : List Char) :
    unescQ (c :: d :: cs) =
      if c = bslash ∧ d = squote then squote :: unescQ cs
      else c :: unescQ (d :: cs) := rfl

theorem jsReplaceAllAux_esc (fuel : Nat) :
    ∀ s : List Char, s.length ≤ fuel →
      jsReplaceAllAux [squote] [bslash, squote] fuel s = escQ s := by
  induction fuel with
  | zero =>
    intro s hs
    obtain rfl : s = [] := List.length_eq_zero.mp (Nat.le_zero.mp hs)
    rfl
  | succ n ih =>
    intro s hs
    cases s with
    | nil => rfl
    | cons c cs =>
      have hlen : cs.length ≤ n := by
        simpa using Nat.le_of_succ_le_succ hs
      rw [jsReplaceAllAux_cons, escQ_cons]
      by_cases hc : c = squote
      · subst hc
        have hcond : ([squote] : List Char) ≠ [] ∧
            ([squote].isPrefixOf (squote :: cs) : Prop) :=
          ⟨by simp, by simp [List.isPrefixOf]⟩
        rw [if_pos hcond, if_pos rfl]
        simp only [List.length_singleton, Nat.sub_self, List.drop_zero]
        rw [ih cs hlen]
        rfl
      · have hcond : ¬ (([squote] : List Char) ≠ [] ∧
            ([squote].isPrefixOf (c :: cs) : Prop)) := by
          intro h
          have := h.2
          simp [List.isPrefixOf] at this
          exact hc this.symm
        rw [if_neg hcond, if_neg hc, ih cs hlen]

theorem jsReplaceAllAux_unesc (fuel : Nat) :
    ∀ s : List Char, s.length ≤ fuel →
      jsReplaceAllAux [bslash, squote] [squote] fuel s = unescQ s := by
  induction fuel with
  | zero =>
    intro s hs
    obtain rfl : s = [] := List.length_eq_zero.mp (Nat.le_zero.mp hs)
    rfl
  | succ n ih =>
    intro s hs
    cases s with
    | nil => rfl
    | cons c cs =>
      cases cs with
      | nil =>
        rw [jsReplaceAllAux_cons]
        have hcond : ¬ (([bslash, squote] : List Char) ≠ [] ∧
            ([bslash, squote].isPrefixOf [c] : Prop)) := by
          intro h
          simpa [List.isPrefixOf] using h.2
        rw [if_neg hcond, jsReplaceAllAux_nil]
        rfl
      | cons d ds =>
        have hlen1 : (d :: ds).length ≤ n := by
          simp at hs ⊢; omega
        have hlen2 : ds.length ≤ n := by
          simp at hs; omega
        rw [jsReplaceAllAux_cons, unescQ_cons_cons]
        by_cases hcd : c = bslash ∧ d = squote
        · obtain ⟨rfl, rfl⟩ := hcd
          have hcond : ([bslash, squote] : List Char) ≠ [] ∧
              ([bslash, squote].isPrefixOf (bslash :: squote :: ds) : Prop) :=
            ⟨by simp, by simp [List.isPrefixOf]⟩
          rw [if_pos hcond, if_pos ⟨rfl, rfl⟩]
          have hdrop : List.drop (([bslash, squote] : List Char).length - 1)
              (squote :: ds) = ds := by
            simp
          rw [hdrop, ih ds hlen2]
          rfl
        · have hcond : ¬ (([bslash, squote] : List Char) ≠ [] ∧
              ([bslash, squote].isPrefixOf (c :: d :: ds) : Prop)) := by
            intro h
            have h2 := h.2
            simp only [List.isPrefixOf, Bool.and_eq_true, beq_iff_eq] at h2
            exact hcd ⟨h2.1.symm, h2.2.1.symm⟩
          rw [if_neg hcond, if_neg hcd, ih (d :: ds) hlen1]

theorem escQ_head_ne_squote {cs : List Char} {d : Char} {t : List Char}
    (h : escQ cs = d :: t) : d ≠ squote := by
  cases cs with
  | nil => simp [escQ] at h
  | cons c cs' =>
    by_cases hc : c = squote
    · subst hc
      rw [show escQ (squote :: cs') = bslash :: squote :: escQ cs' by
        simp [escQ]] at h
      injection h with h1 _
      rw [← h1]
      exact bslash_ne_squote
    · rw [show escQ (c :: cs') = c :: escQ cs' by simp [escQ, hc]] at h
      injection h with h1 _
      rw [← h1]
      exact hc

theorem escQ_eq_nil {cs : List Char} (h : escQ cs = []) : cs = [] := by
  cases cs with
  | nil => rfl
  | cons x xs =>
    by_cases hx : x = squote <;> simp [escQ, hx] at h

theorem unescQ_escQ (s : List Char) : unescQ (escQ s) = s := by
  induction s with
  | nil => rfl
  | cons c cs ih =>
    by_cases hc : c = squote
    · subst hc
      rw [show escQ (squote :: cs) = bslash :: squote :: escQ cs by simp [escQ]]
      rw [show unescQ (bslash :: squote :: escQ cs) = squote :: unescQ (escQ cs) by
        simp [unescQ]]
      rw [ih]
    · rw [show escQ (c :: cs) = c :: escQ cs by simp [escQ, hc]]
      cases hcs : escQ cs with
      | nil =>
        obtain rfl := escQ_eq_nil hcs
        simp [unescQ]
      | cons d t =>
        rw [hcs] at ih
        have hd : d ≠ squote := escQ_head_ne_squote hcs
        rw [show unescQ (c :: d :: t) = c :: unescQ (d :: t) by
          simp only [unescQ]
          rw [if_neg (fun h => hd h.2)]]
        rw [ih]

theorem hasUnescapedQuote_escQ (s : List Char) :
    ∀ prev, hasUnescapedQuote prev (escQ s) = false := by
  induction s with
  | nil => intro prev; rfl
  | cons c cs ih =>
    intro prev
    by_cases hc : c = squote
    · subst hc
      rw [show escQ (squote :: cs) = bslash :: squote :: escQ cs by simp [escQ]]
      simp only [hasUnescapedQuote]
      rw [if_neg (fun h => bslash_ne_squote h.1)]
      rw [if_neg (fun h => h.2 rfl)]
      exact ih _
    · rw [show escQ (c :: cs) = c :: escQ cs by simp [escQ, hc]]
      simp only [hasUnescapedQuote]
      rw [if_neg (fun h => hc h.1)]
      exact ih _

/-- C10: for every string `s`, `unquoteString (quoteString s)` succeeds and
returns `s`: quoting a value as a single-quoted string with backslash-escaped
quotes and then unquoting it is the identity. -/
theorem C10_quote_unquote_roundtrip (s : List Char) :
    unquoteString (quoteString s) = .ok s := by
  unfold quoteString unquoteString
  have hesc : jsReplaceAll [squote] [bslash, squote] s = escQ s :=
    jsReplaceAllAux_esc s.length s (Nat.le_refl _)
  rw [hesc]
  have hhead : (squote :: escQ s ++ [squote]).head? = some squote := by
    simp
  have hlast : ((squote :: escQ s ++ [squote]) : List Char).getLast? = some squote := by
    rw [show squote :: escQ s ++ [squote] = (squote :: escQ s) ++ [squote] by simp,
      List.getLast?_concat]
  rw [if_pos ⟨hhead, hlast⟩]
  have hinner : ((squote :: escQ s ++ [squote]).drop 1).dropLast = escQ s := by
    simp only [List.cons_append, List.drop_succ_cons, List.drop_zero]
    exact List.dropLast_concat
  simp only [hinner]
  rw [hasUnescapedQuote_escQ s none]
  simp only [Bool.false_eq_true, if_false]
  unfold jsReplaceAll
  rw [jsReplaceAllAux_unesc (escQ s).length (escQ s) (Nat.le_refl _)]
  rw [unescQ_escQ]

/-! ## `src/xmlUtils.ts` -/

/-- `xmlEncode`: sequential `replaceAll` over the `encodeTokens` entries in
declaration order (`&`, `<`, `>`, `"`, `'`). -/
def xmlEncode (s : List Char) : List Char :=
  jsReplaceAll [squote] (strL "&apos;")
    (jsReplaceAll [Char.ofNat 34] (strL "&quot;")
      (jsReplaceAll [Char.ofNat 62] (strL "&gt;")
        (jsReplaceAll [Char.ofNat 60] (strL "&lt;")
          (jsReplaceAll [Char.ofNat 38] (strL "&amp;") s))))

/-- `xmlDecode`: sequential `replaceAll` over the `decodeTokens` entries in
declaration order (`&lt;`, `&gt;`, `&quot;`, `&apos;`, `&amp;`). -/
def xmlDecode (s : List Char) : List Char :=
  jsReplaceAll (strL "&amp;") [Char.ofNat 38]
    (jsReplaceAll (strL "&apos;") [squote]
      (jsReplaceAll (strL "&quot;") [Char.ofNat 34]
        (jsReplaceAll (strL "&gt;") [Char.ofNat 62]
          (jsReplaceAll (strL "&lt;") [Char.ofNat 60] s))))

/-! ## `src/XmlModel.ts`: the document model

`XmlAttr.ns` models the JS `namespace` field, which can be `undefined` (not
yet resolved, Lean `none`), `null` (no namespace, Lean `some none`) or a
resolved URI string (Lean `some (some uri)`).  An element's `namespace` is
`undefined` or a string, hence a single `Option`.  JS objects keyed by the
attribute fullname are modelled as insertion-ordered association lists; the
`parent` back-reference is represented by passing the ancestor chain
explicitly where namespace resolution needs it. -/

structure XmlAttr where
  localName : List Char
  localPfx : Option (List Char)   -- source field: localNamespacePrefix
  ns : Option (Option (List Char))
  value : List Char
deriving DecidableEq, Repr

inductive XmlNode : Type where
  | text (s : List Char)
  | elem (localPfx : Option (List Char)) (localName : List Char)
      (attrs : List (List Char × XmlAttr))
      (namespaceDefs : List (List Char × List Char))
      (ns : Option (List Char))
      (children : List XmlNode)

def XmlNode.children : XmlNode → List XmlNode
  | .text _ => []
  | .elem _ _ _ _ _ cs => cs

def XmlNode.localName : XmlNode → List Char
  | .text _ => []
  | .elem _ n _ _ _ _ => n

def XmlNode.nsOf : XmlNode → Option (List Char)
  | .text _ => none
  | .elem _ _ _ _ ns _ => ns

def XmlNode.attrs : XmlNode → List (List Char × XmlAttr)
  | .text _ => []
  | .elem _ _ a _ _ _ => a

/-- Look up a key in a JS-object-as-association-list. -/
def jsLookup {α : Type} (m : List (List Char × α)) (key : List Char) : Option α :=
  match m with
  | [] => none
  | (k, v) :: rest => if k = key then some v else jsLookup rest key

/-- JS object property assignment `m[key] = v`: overwrites in place if the key
exists (keeping its insertion position), otherwise appends. -/
def jsUpsert {α : Type} (m : List (List Char × α)) (key : List Char) (v : α) :
    List (List Char × α) :=
  match m with
  | [] => [(key, v)]
  | (k, w) :: rest => if k = key then (k, v) :: rest else (k, w) :: jsUpsert rest key v

/-- `localFullname`: `(localNamespacePrefix != null ? prefix + ':' : '') + localName`. -/
def localFullname (pfx? : Option (List Char)) (name : List Char) : List Char :=
  (match pfx? with
   | some p => p ++ [':']
   | none => []) ++ name

/-- One attribute as rendered inside `tagOpen`:
`' ' + (prefix? prefix + ':' : '') + localName + '="' + xmlEncode(value) + '"'`. -/
def attrText (a : XmlAttr) : List Char :=
  [spaceChar] ++
    (match a.localPfx with
     | some p => p ++ [':']
     | none => []) ++
    a.localName ++ ['=', Char.ofNat 34] ++ xmlEncode a.value ++ [Char.ofNat 34]

/-- One namespace declaration as rendered inside `tagOpen`:
`' xmlns' + (prefix != '' ? ':' + prefix : '') + '="' + xmlEncode(value) + '"'`. -/
def nsDefText (e : List Char × List Char) : List Char :=
  strL " xmlns" ++
    (if e.1 ≠ [] then ':' :: e.1 else []) ++
    ['=', Char.ofNat 34] ++ xmlEncode e.2 ++ [Char.ofNat 34]

/-- `XmlElement.tagOpen` (a getter in the source). -/
def tagOpen (pfx? : Option (List Char)) (name : List Char)
    (attrs : List (List Char × XmlAttr)) (nsDefs : List (List Char × List Char))
    (childrenEmpty : Bool) : List Char :=
  ['<'] ++ localFullname pfx? name ++
    (attrs.map (fun kv => attrText kv.2)).flatten ++
    (nsDefs.map nsDefText).flatten ++
    (if childrenEmpty then strL " /" else []) ++ ['>']

/-- `XmlElement.tagClose`: `null` when there are no children (rendered as `''`
by `serialize`), otherwise `'</' + localFullname + '>'`. -/
def tagClose (pfx? : Option (List Char)) (name : List Char)
    (childrenEmpty : Bool) : List Char :=
  if childrenEmpty then [] else strL "</" ++ localFullname pfx? name ++ ['>']

mutual

/-- `XmlElement.serialize` (instance method), fueled (one unit of fuel per
tree level; any fuel at least the tree depth gives the JS behaviour).  Note
the source's child loop: a string child is pushed and then the loop `break`s,
so any children after the first string child are not serialized. -/
def serializeNodeFuel : Nat → XmlNode → List Char
  | 0, _ => []
  | _ + 1, .text s => s
  | fuel + 1, .elem p n attrs nsds _ children =>
    tagOpen p n attrs nsds children.isEmpty ++
      serializeChildrenFuel fuel children ++
      tagClose p n children.isEmpty

/-- The child loop of `XmlElement.serialize`: `break` after the first string. -/
def serializeChildrenFuel : Nat → List XmlNode → List Char
  | 0, _ => []
  | _ + 1, [] => []
  | _ + 1, .text s :: _ => s
  | fuel + 1, (.elem p n a d ns cs) :: rest =>
    serializeNodeFuel fuel (.elem p n a d ns cs) ++ serializeChildrenFuel fuel rest

end

mutual

/-- `XmlElement.serialize` (static): `''` for `null`, splices `_replace`
wrappers, returns strings unchanged, serializes elements. -/
def serializeStaticFuel : Nat → Option XmlNode → List Char
  | 0, _ => []
  | _ + 1, none => []
  | _ + 1, some (.text s) => s
  | fuel + 1, some (.elem p n a d ns cs) =>
    if n = strL "_replace" then serializeStaticListFuel fuel cs
    else serializeNodeFuel (fuel + 1) (.elem p n a d ns cs)

def serializeStaticListFuel : Nat → List XmlNode → List Char
  | 0, _ => []
  | _ + 1, [] => []
  | fuel + 1, c :: rest =>
    serializeStaticFuel fuel (some c) ++ serializeStaticListFuel fuel rest

end

/-- C4 (code bug): serialization stops at the first string child.  The element
`<a>` with children `["x", <b/>]` — exactly what parsing `"<a>x<b /></a>"`
produces — serializes to `"<a>x</a>"`: the `<b />` child following the string
child is dropped, contradicting the serialization contract that every child is
emitted in order.  (The `for` loop in `XmlElement.serialize` executes `break`
after pushing a string child.) -/
theorem C4_serialize_drops_children_after_string :
    serializeNodeFuel 10
        (.elem none (strL "a") [] [] (some [])
          [.text (strL "x"), .elem none (strL "b") [] [] (some []) []]) =
      strL "<a>x</a>" ∧
    strL "<a>x</a>" ≠ strL "<a>x<b /></a>" := by
  constructor
  · decide
  · decide

/-! ## `src/EsiVariables.ts` -/

def isDigitChar (c : Char) : Bool := 48 ≤ c.val ∧ c.val ≤ 57

/-- JS `\s`: whitespace character class. -/
def jsIsSpace (c : Char) : Bool :=
  c.val = 9 ∨ c.val = 10 ∨ c.val = 11 ∨ c.val = 12 ∨ c.val = 13 ∨ c.val = 32 ∨
  c.val = 160 ∨ c.val = 5760 ∨ (8192 ≤ c.val ∧ c.val ≤ 8202) ∨ c.val = 8232 ∨
  c.val = 8233 ∨ c.val = 8239 ∨ c.val = 8287 ∨ c.val = 12288 ∨ c.val = 65279

/-- `NUMBER_TEST = /^(\d+(\.\d*)?|\.\d+)$/`. -/
def numberTest (val : List Char) : Bool :=
  let ds := val.takeWhile isDigitChar
  let rest := val.drop ds.length
  if ds ≠ [] then
    match rest with
    | [] => true
    | c :: tl => c = '.' ∧ tl.all isDigitChar
  else
    match rest with
    | c :: tl => c = '.' ∧ tl ≠ [] ∧ tl.all isDigitChar
    | [] => false

def digitsToNat (ds : List Char) : Nat :=
  ds.foldl (fun acc c => 10 * acc + (c.val.toNat - 48)) 0

/-- `parseAsNumber`: `undefined` unless `NUMBER_TEST` passes, else
`parseInt('0' + val, 10)` — which parses the digits before any decimal point
(so `".5"` gives `0` and `"12.9"` gives `12`). -/
def parseAsNumber (val : Option (List Char)) : Option Nat :=
  match val with
  | none => none
  | some v =>
    if numberTest v then some (digitsToNat (v.takeWhile isDigitChar)) else none

/-- The `IEsiVariable` implementations: `EsiStringVariable`, and the generic
`EsiListVariable` / `EsiDictionaryVariable` whose constructors take the raw
header value and the parsing function `fn` (the lazily-built `map` is `fn`
applied to `value`).  Dictionary map entries have type `string | undefined` in
the source, hence `Option (List Char)` values. -/
inductive IEsiVariable where
  | stringVar (value : List Char)
  | listVar (value : List Char) (fn : List Char → List (List Char × Bool))
  | dictVar (value : List Char) (fn : List Char → List (List Char × Option (List Char)))

def IEsiVariable.getValue : IEsiVariable → Option (List Char)
  | .stringVar v => some (quoteString v)
  | .listVar v _ => some (quoteString v)
  | .dictVar v _ => some (quoteString v)

/-- `getSubValue`: `EsiStringVariable` returns `undefined`;
`EsiListVariable` returns `(map[key] ?? false) ? 'true' : 'false'`;
`EsiDictionaryVariable` returns `quoteString(map[key] ?? '')`. -/
def IEsiVariable.getSubValue : IEsiVariable → List Char → Option (List Char)
  | .stringVar _, _ => none
  | .listVar v fn, key =>
    some (if (jsLookup (fn v) key).getD false then strL "true" else strL "false")
  | .dictVar v fn, key =>
    some (quoteString (((jsLookup (fn v) key).bind id).getD []))

/-- `EsiVariables`: the container keyed by variable name. -/
structure EsiVariables where
  values : List (List Char × IEsiVariable)

/-- `EsiVariables.getValue(name, subKey = null)`. -/
def EsiVariables.getValue (vars : EsiVariables) (name : List Char)
    (subKey : Option (List Char)) : Option (List Char) :=
  match jsLookup vars.values name with
  | none => none
  | some v =>
    match subKey with
    | none => v.getValue
    | some k => v.getSubValue k

/-- The `IEsiVariables` interface as used by the transformer and the
expression evaluator: `getValue(name, subKey)`. -/
def VarsFn : Type := List Char → Option (List Char) → Option (List Char)

def EsiVariables.toFn (vars : EsiVariables) : VarsFn :=
  fun name subKey => vars.getValue name subKey

/-- C9, counterexample: a list variable (the kind backing
`HTTP_ACCEPT_LANGUAGE`) queried with an unknown sub-key returns the literal
string `false`, not absent. -/
theorem C9_counterexample_list_subkey_not_absent :
    EsiVariables.getValue
        ⟨[(strL "LANGS", .listVar (strL "en") (fun v => [(v, true)]))]⟩
        (strL "LANGS") (some (strL "fr")) = some (strL "false") ∧
      some (strL "false") ≠ (none : Option (List Char)) := by
  constructor
  · rfl
  · intro h
    cases h

/-- C9, amended: unknown variable *names* are absent, and an unknown sub-key
is absent only for string variables; a list variable yields the literal
`'false'` and a dictionary variable yields the quoted empty string `''` for
unknown sub-keys. -/
theorem C9_unknown_lookups :
    (∀ (vars : EsiVariables) (name : List Char) (subKey : Option (List Char)),
      jsLookup vars.values name = none → vars.getValue name subKey = none) ∧
    (∀ (v : List Char) (key : List Char),
      (IEsiVariable.stringVar v).getSubValue key = none) ∧
    (∀ (v : List Char) (fn : List Char → List (List Char × Bool)) (key : List Char),
      jsLookup (fn v) key = none →
        (IEsiVariable.listVar v fn).getSubValue key = some (strL "false")) ∧
    (∀ (v : List Char) (fn : List Char → List (List Char × Option (List Char)))
        (key : List Char),
      jsLookup (fn v) key = none →
        (IEsiVariable.dictVar v fn).getSubValue key = some (quoteString [])) := by
  refine ⟨?_, ?_, ?_, ?_⟩
  · intro vars name subKey h
    unfold EsiVariables.getValue
    rw [h]
  · intro v key
    rfl
  · intro v fn key h
    show some (if (jsLookup (fn v) key).getD false then strL "true" else strL "false") =
      some (strL "false")
    rw [h]
    rfl
  · intro v fn key h
    show some (quoteString (((jsLookup (fn v) key).bind id).getD [])) =
      some (quoteString [])
    rw [h]
    rfl

/-- Witness for `C9_unknown_lookups` at concrete inputs. -/
theorem C9_unknown_lookups_witness :
    EsiVariables.getValue ⟨[]⟩ (strL "FOO") none = none ∧
    (IEsiVariable.stringVar (strL "x")).getSubValue (strL "k") = none ∧
    (IEsiVariable.listVar (strL "x") (fun _ => [])).getSubValue (strL "k") =
      some (strL "false") ∧
    (IEsiVariable.dictVar (strL "x") (fun _ => [])).getSubValue (strL "k") =
      some (quoteString []) :=
  ⟨C9_unknown_lookups.1 ⟨[]⟩ (strL "FOO") none rfl,
   C9_unknown_lookups.2.1 (strL "x") (strL "k"),
   C9_unknown_lookups.2.2.1 (strL "x") (fun _ => []) (strL "k") rfl,
   C9_unknown_lookups.2.2.2 (strL "x") (fun _ => []) (strL "k") rfl⟩

/-! ### Variable reference matching (`ESI_VARIABLES_REGEX` and friends)

`\$\((varName)(\{(subkeyName)\})?(\|((dv1)|'(dv2)'))?\)` where `varName` is
`[-_A-Z]+` for the substitution/anchored regexes and `[-_A-Z0-9]+` in the
expression lexer; `subkeyName` is `[-_A-Za-z0-9]+`; `dv1` is `[^\s']+`
(backtracking so that the final `\)` can match — i.e. the last `)` inside the
run of `dv1` characters); `dv2` is `[^']*`. -/

structure EsiVarMatch where
  varName : List Char
  subkeyName : Option (List Char)
  defaultValue1 : Option (List Char)
  defaultValue2 : Option (List Char)
  matchLen : Nat
deriving DecidableEq, Repr

/-- Variable-name character for `ESI_VARIABLES_REGEX` / `ESI_VARIABLE_REGEX`:
`[-_A-Z]`. -/
def isVarNameCharStrict (c : Char) : Bool :=
  c = '-' ∨ c = '_' ∨ (65 ≤ c.val ∧ c.val ≤ 90)

/-- Variable-name character for the expression lexer token: `[-_A-Z0-9]`. -/
def isVarNameCharLexer (c : Char) : Bool :=
  isVarNameCharStrict c ∨ isDigitChar c

/-- Sub-key character: `[-_A-Za-z0-9]`. -/
def isSubkeyChar (c : Char) : Bool :=
  c = '-' ∨ c = '_' ∨ (65 ≤ c.val ∧ c.val ≤ 90) ∨ (97 ≤ c.val ∧ c.val ≤ 122) ∨
    isDigitChar c

/-- `dv1` character: `[^\s']`. -/
def isDv1Char (c : Char) : Bool := ¬ jsIsSpace c ∧ c ≠ squote

/-- Index of the last occurrence of `c` in `run`. -/
def lastIdxOf (run : List Char) (c : Char) : Option Nat :=
  match run.reverse.findIdx? (· = c) with
  | none => none
  | some k => some (run.length - 1 - k)

/-- Match the ESI variable-reference pattern at the start of `s` (`s` is the
suffix beginning at a candidate `$`).  Returns the captured groups and the
length of the match. -/
def matchEsiVarAt (nameChar : Char → Bool) (s : List Char) : Option EsiVarMatch :=
  match s with
  | '$' :: '(' :: rest =>
    let name := rest.takeWhile nameChar
    if name = [] then none
    else
      let rest1 := rest.drop name.length
      -- optional {subkeyName}
      let step1 : Option (Option (List Char) × List Char) :=
        match rest1 with
        | c :: tl =>
          if c = lbraceChar then
            let sk := tl.takeWhile isSubkeyChar
            if sk ≠ [] ∧ (tl.drop sk.length).head? = some rbraceChar then
              some (some sk, tl.drop (sk.length + 1))
            else none
          else some (none, rest1)
        | [] => some (none, rest1)
      match step1 with
      | none => none
      | some (subkey?, rest2) =>
        -- optional |default, then the closing `)`
        let step2 : Option (Option (List Char) × Option (List Char) × List Char) :=
          match rest2 with
          | c :: tl =>
            if c = '|' then
              match tl with
              | q :: tl2 =>
                if q = squote then
                  let dv := tl2.takeWhile (fun x => x ≠ squote)
                  if (tl2.drop dv.length).head? = some squote then
                    some (none, some dv, tl2.drop (dv.length + 1))
                  else none
                else
                  let run := tl.takeWhile isDv1Char
                  match lastIdxOf run ')' with
                  | some j =>
                    if 1 ≤ j then some (some (run.take j), none, tl.drop j)
                    else none
                  | none => none
              | [] => none
            else some (none, none, rest2)
          | [] => some (none, none, rest2)
        match step2 with
        | none => none
        | some (dv1?, dv2?, rest3) =>
          match rest3 with
          | c :: _ =>
            if c = ')' then
              some { varName := name, subkeyName := subkey?,
                     defaultValue1 := dv1?, defaultValue2 := dv2?,
                     matchLen := s.length - rest3.length + 1 }
            else none
          | [] => none
  | _ => none

/-- `evaluateEsiVariableValue(groups, vars)`. -/
def evaluateEsiVariableValue (m : EsiVarMatch) (vars : Option VarsFn) :
    Option (List Char) :=
  let value : Option (List Char) :=
    match vars with
    | none => none
    | some f => f m.varName m.subkeyName
  if value = none ∨ value = some [] ∨ value = some (strL "false") then
    match m.defaultValue1 <|> m.defaultValue2 with
    | some dv => some (quoteString dv)
    | none => value
  else value

/-- The global-replace loop of `applyEsiVariables`: scan for matches of
`ESI_VARIABLES_REGEX`, replacing each by the replacement-callback result (the
empty string for `undefined`/`''`/`'true'`/`'false'` values, otherwise the
unquoted value — whose `unquoteString` may throw). -/
def applyEsiVarsLoop (vars : Option VarsFn) : Nat → List Char →
    Except (List Char) (List Char)
  | 0, s => .ok s
  | _ + 1, [] => .ok []
  | fuel + 1, c :: cs =>
    match if c = '$' then matchEsiVarAt isVarNameCharStrict (c :: cs) else none with
    | some m =>
      let value := evaluateEsiVariableValue m vars
      if value = none ∨ value = some [] ∨ value = some (strL "true") ∨
          value = some (strL "false") then
        (applyEsiVarsLoop vars fuel ((c :: cs).drop m.matchLen)).map (fun r => r)
      else
        match unquoteString (value.getD []) with
        | .error e => .error e
        | .ok u => (applyEsiVarsLoop vars fuel ((c :: cs).drop m.matchLen)).map
            (fun r => u ++ r)
    | none => (applyEsiVarsLoop vars fuel cs).map (fun r => c :: r)

/-- `applyEsiVariables(input, vars)`: `undefined` for `undefined` input. -/
def applyEsiVariables (input : Option (List Char)) (vars : Option VarsFn) :
    Except (List Char) (Option (List Char)) :=
  match input with
  | none => .ok none
  | some s => (applyEsiVarsLoop vars s.length s).map some

/-- `evaluateEsiVariable(input, vars)`: the anchored `ESI_VARIABLE_REGEX`
(`^...$`, strict `[-_A-Z]+` name class); throws `invalid variable format` when
it does not match the whole input. -/
def evaluateEsiVariable (input : Option (List Char)) (vars : Option VarsFn) :
    Except (List Char) (Option (List Char)) :=
  let inp := input.getD []
  match matchEsiVarAt isVarNameCharStrict inp with
  | some m =>
    if m.matchLen = inp.length then .ok (evaluateEsiVariableValue m vars)
    else .error (strL "invalid variable format")
  | none => .error (strL "invalid variable format")

/-! ## `src/EsiExpressions.ts` -/

/-- `EsiExpressionValue`: tagged values flowing through the lexer, parser and
postfix evaluator.  Numbers come from `parseAsNumber`, so they are naturals. -/
inductive EsiValue where
  | str (s : List Char)
  | num (n : Nat)
  | bool (b : Bool)
  | undef
  | openParen
  | closeParen
  | operator (op : List Char)
deriving DecidableEq, Repr

structure LexerToken where
  text : List Char
  ttype : List Char    -- source field name: type
deriving DecidableEq, Repr

/-- JS `.` (without the `s` flag): any char except line terminators. -/
def isDotChar (c : Char) : Bool :=
  ¬ (c.val = 10 ∨ c.val = 13 ∨ c.val = 8232 ∨ c.val = 8233)

/-- The lazy part of `/^'.*?[^\\]'/`: given the text after the opening quote,
find the least `k` such that position `k` holds a non-backslash char followed
by a quote; every skipped char must be matched by `.`. -/
def litStrScan : List Char → Option Nat
  | c :: d :: tl =>
    if c ≠ bslash ∧ d = squote then some 0
    else if isDotChar c then (litStrScan (d :: tl)).map (· + 1) else none
  | _ => none

/-- `literalString: /^'.*?[^\\]'/`. -/
def matchLiteralString (s : List Char) : Option (List Char) :=
  match s with
  | q :: rest =>
    if q = squote then (litStrScan rest).map (fun k => s.take (k + 3)) else none
  | [] => none

/-- `literalNumber: /^(\d+|(\d*\.\d+))/` — ordered alternation, so a leading
digit run wins even when a decimal point follows. -/
def matchLiteralNumber (s : List Char) : Option (List Char) :=
  let ds := s.takeWhile isDigitChar
  if ds ≠ [] then some ds
  else
    match s with
    | c :: tl =>
      if c = '.' then
        let ds2 := tl.takeWhile isDigitChar
        if ds2 ≠ [] then some (c :: ds2) else none
      else none
    | [] => none

/-- `literalBoolean: /^(true|false)/`. -/
def matchLiteralBoolean (s : List Char) : Option (List Char) :=
  if (strL "true").isPrefixOf s then some (strL "true")
  else if (strL "false").isPrefixOf s then some (strL "false")
  else none

/-- `operator: /^(\(|\)|==|!=|>=|<=|>|<|!|&|\|)/` — ordered alternation. -/
def operatorAlts : List (List Char) :=
  [strL "(", strL ")", strL "==", strL "!=", strL ">=", strL "<=", strL ">",
   strL "<", strL "!", strL "&", strL "|"]

def matchOperator (s : List Char) : Option (List Char) :=
  operatorAlts.find? (fun alt => alt.isPrefixOf s)

/-- `esiVariable` token (lexer name class `[-_A-Z0-9]+`). -/
def matchEsiVariableTok (s : List Char) : Option (List Char) :=
  (matchEsiVarAt isVarNameCharLexer s).map (fun m => s.take m.matchLen)

/-- One pass over the rules of `EsiExpressionEvaluator.LEXER_TOKEN_DEFS` in
declaration order; the first matching rule wins. -/
def matchWhitespace (s : List Char) : Option (List Char) :=
  let w := s.takeWhile jsIsSpace
  if w ≠ [] then some w else none

def lexRuleMatch (s : List Char) : Option LexerToken :=
  match matchWhitespace s with
  | some t => some ⟨t, strL "whitespace"⟩
  | none =>
    match matchLiteralString s with
    | some t => some ⟨t, strL "literalString"⟩
    | none =>
      match matchLiteralNumber s with
      | some t => some ⟨t, strL "literalNumber"⟩
      | none =>
        match matchLiteralBoolean s with
        | some t => some ⟨t, strL "literalBoolean"⟩
        | none =>
          match matchOperator s with
          | some t => some ⟨t, strL "operator"⟩
          | none =>
            match matchEsiVariableTok s with
            | some t => some ⟨t, strL "esiVariable"⟩
            | none => none

/-- `StringLexer.tokenize`: skip one char when no rule matches, else consume
the matched text.  Fueled; each step consumes at least one char. -/
def stringLexerTokenize : Nat → List Char → List LexerToken
  | 0, _ => []
  | _ + 1, [] => []
  | fuel + 1, c :: cs =>
    match lexRuleMatch (c :: cs) with
    | none => stringLexerTokenize fuel cs
    | some tok => tok :: stringLexerTokenize fuel ((c :: cs).drop tok.text.length)

/-- `EsiExpressionEvaluator.tokenize`: convert lexer tokens into
`EsiExpressionValue`s (dropping whitespace); string literals are unquoted
(whose failure throws), variables evaluated (whose format failure throws) and
classified number / boolean / string / undefined. -/
def esiTokenizeValues (vars : Option VarsFn) :
    List LexerToken → Except (List Char) (List EsiValue)
  | [] => .ok []
  | tok :: rest =>
    if tok.ttype = strL "whitespace" then esiTokenizeValues vars rest
    else
      match
        (if tok.ttype = strL "literalString" then
          match unquoteString tok.text with
          | .error e => .error e
          | .ok u => .ok (some (.str u))
        else if tok.ttype = strL "literalNumber" then
          .ok (some (.num ((parseAsNumber (some tok.text)).getD 0)))
        else if tok.ttype = strL "literalBoolean" then
          .ok (some (.bool (tok.text = strL "true")))
        else if tok.ttype = strL "operator" then
          if tok.text = strL "(" then .ok (some .openParen)
          else if tok.text = strL ")" then .ok (some .closeParen)
          else .ok (some (.operator tok.text))
        else if tok.ttype = strL "esiVariable" then
          match evaluateEsiVariable (some tok.text) vars with
          | .error e => .error e
          | .ok value =>
            match parseAsNumber value with
            | some n => .ok (some (.num n))
            | none =>
              if value = some (strL "true") ∨ value = some (strL "false") then
                .ok (some (.bool (value = some (strL "true"))))
              else
                match value with
                | some v =>
                  match unquoteString v with
                  | .ok u => .ok (some (.str u))
                  | .error _ => .ok (some .undef)
                | none => .ok (some .undef)
        else .ok none : Except (List Char) (Option EsiValue))
      with
      | .error e => .error e
      | .ok v? =>
        match esiTokenizeValues vars rest with
        | .error e => .error e
        | .ok vs =>
          .ok (match v? with
               | some v => v :: vs
               | none => vs)

def esiTokenize (vars : Option VarsFn) (expression : List Char) :
    Except (List Char) (List EsiValue) :=
  esiTokenizeValues vars (stringLexerTokenize expression.length expression)

/-- `EsiExpressionEvaluator.PARSER_TABLE`. -/
structure ParserOpDef where
  precedence : Nat
  assoc : List Char   -- 'left' or 'right'
deriving DecidableEq, Repr

def parserTable (op : List Char) : Option ParserOpDef :=
  if op = strL "==" then some ⟨4, strL "left"⟩
  else if op = strL "!=" then some ⟨4, strL "left"⟩
  else if op = strL "<=" then some ⟨4, strL "left"⟩
  else if op = strL ">=" then some ⟨4, strL "left"⟩
  else if op = strL "<" then some ⟨4, strL "left"⟩
  else if op = strL ">" then some ⟨4, strL "left"⟩
  else if op = strL "!" then some ⟨3, strL "right"⟩
  else if op = strL "&" then some ⟨2, strL "left"⟩
  else if op = strL "|" then some ⟨1, strL "left"⟩
  else none

def esiGetOperation (v : EsiValue) : Option ParserOpDef :=
  match v with
  | .operator op => parserTable op
  | _ => none

def comparisonOpNames : List (List Char) :=
  [strL "==", strL "!=", strL "<=", strL ">=", strL "<", strL ">"]

def isComparisonOp (op : List Char) : Bool := comparisonOpNames.contains op

/-- JS `String(n)` for the naturals produced by `parseAsNumber`. -/
def natToStr (n : Nat) : List Char := (Nat.repr n).data

/-- JS `<` on strings: code-unit lexicographic order. -/
def jsStrLt : List Char → List Char → Bool
  | [], [] => false
  | [], _ :: _ => true
  | _ :: _, [] => false
  | a :: as, b :: bs =>
    if a.val < b.val then true
    else if b.val < a.val then false
    else jsStrLt as bs

def jsCmpNat (op : List Char) (a b : Nat) : Bool :=
  if op = strL "==" then a == b
  else if op = strL "!=" then a != b
  else if op = strL "<=" then decide (a ≤ b)
  else if op = strL ">=" then decide (b ≤ a)
  else if op = strL "<" then decide (a < b)
  else if op = strL ">" then decide (b < a)
  else false

def jsCmpStr (op : List Char) (a b : List Char) : Bool :=
  if op = strL "==" then a == b
  else if op = strL "!=" then a != b
  else if op = strL "<=" then !(jsStrLt b a)
  else if op = strL ">=" then !(jsStrLt a b)
  else if op = strL "<" then jsStrLt a b
  else if op = strL ">" then jsStrLt b a
  else false

/-- `EsiExpressionEvaluator.onPop`.  The JS method mutates the `output` array
(popping operands and later having the result pushed by the caller); here the
output stack is threaded explicitly with its top at the head.  Popping from an
empty output models the JS `output.pop()!` returning `undefined`, whose
subsequent `.type` access throws a `TypeError`. -/
def esiOnPop (tok : EsiValue) (output : List EsiValue) :
    Except (List Char) (EsiValue × List EsiValue) :=
  match tok with
  | .operator op =>
    match output with
    | [] => .error (strL "TypeError: cannot read properties of undefined")
    | right :: out1 =>
      if op = strL "!" then
        match right with
        | .bool b => .ok (.bool (!b), out1)
        | _ => .ok (.undef, out1)
      else
        match out1 with
        | [] => .error (strL "TypeError: cannot read properties of undefined")
        | left :: out2 =>
          let logicalRes : Option Bool :=
            if op = strL "&" ∨ op = strL "|" then
              match left, right with
              | .bool a, .bool b =>
                some (if op = strL "&" then a && b else a || b)
              | _, _ => none
            else none
          let cmpRes : Option Bool :=
            if isComparisonOp op then
              match left, right with
              | .undef, _ => some false
              | _, .undef => some false
              | .num a, .num b => some (jsCmpNat op a b)
              | .num a, .str b => some (jsCmpStr op (natToStr a) b)
              | .str a, .num b => some (jsCmpStr op a (natToStr b))
              | .str a, .str b => some (jsCmpStr op a b)
              | _, _ => none
            else none
          match (match cmpRes with
                 | some r => some r
                 | none => logicalRes) with
          | some r => .ok (.bool r, out2)
          | none => .ok (.undef, out2)
  | _ => .error (strL "Unexpected! onPop should only be an operator")

/-- The close-paren loop of `evaluateTokens`: pop and apply operators until
the matching open paren; an exhausted stack means mismatched parentheses. -/
def popUntilOpenParen : List EsiValue → List EsiValue →
    Except (List Char) (List EsiValue × List EsiValue)
  | [], _ => .error (strL "Mismatched parentheses.")
  | t :: rest, output =>
    if t = .openParen then .ok (rest, output)
    else
      match esiOnPop t output with
      | .error e => .error e
      | .ok (r, out1) => popUntilOpenParen rest (r :: out1)

/-- The operator loop of `evaluateTokens`: pop while the top of the stack is
an operator of no lower effective precedence. -/
def applyWhileHigher (o1 : ParserOpDef) : List EsiValue → List EsiValue →
    Except (List Char) (List EsiValue × List EsiValue)
  | [], output => .ok ([], output)
  | top :: rest, output =>
    if top = .openParen then .ok (top :: rest, output)
    else
      let o2 := (esiGetOperation top).getD ⟨0, []⟩
      if o1.precedence > o2.precedence ∨
          (o1.precedence = o2.precedence ∧ o1.assoc = strL "right") then
        .ok (top :: rest, output)
      else
        match esiOnPop top output with
        | .error e => .error e
        | .ok (r, out1) => applyWhileHigher o1 rest (r :: out1)

/-- The final drain of `evaluateTokens`: an open paren still on the stack
means mismatched parentheses. -/
def drainStack : List EsiValue → List EsiValue →
    Except (List Char) (List EsiValue)
  | [], output => .ok output
  | t :: rest, output =>
    if t = .openParen then .error (strL "Mismatched parentheses.")
    else
      match esiOnPop t output with
      | .error e => .error e
      | .ok (r, out1) => drainStack rest (r :: out1)

/-- `ExpressionEvaluatorBase.evaluateTokens` (shunting yard), with the operand
and operator stacks threaded explicitly (tops at the heads). -/
def shuntTokens : List EsiValue → List EsiValue → List EsiValue →
    Except (List Char) (List EsiValue)
  | [], stack, output => drainStack stack output
  | t :: ts, stack, output =>
    if t = .openParen then shuntTokens ts (t :: stack) output
    else if t = .closeParen then
      match popUntilOpenParen stack output with
      | .error e => .error e
      | .ok (stack1, out1) => shuntTokens ts stack1 out1
    else
      match esiGetOperation t with
      | none => shuntTokens ts stack (t :: output)
      | some o1 =>
        match applyWhileHigher o1 stack output with
        | .error e => .error e
        | .ok (stack1, out1) => shuntTokens ts (t :: stack1) out1

def evaluateTokens (tokens : List EsiValue) : Except (List Char) (List EsiValue) :=
  shuntTokens tokens [] []

/-- `EsiExpressionEvaluator.evaluate`: `true` only for a single boolean
`true` result.  An empty result makes the JS `evaluated[0].type` access throw
a `TypeError`; errors from tokenizing or evaluation propagate (there is no
`try`/`catch` in `evaluate` or in its callers). -/
def esiEvaluate (vars : Option VarsFn) (expression : List Char) :
    Except (List Char) Bool :=
  match esiTokenize vars expression with
  | .error e => .error e
  | .ok parsedTokens =>
    match evaluateTokens parsedTokens with
    | .error e => .error e
    | .ok evaluated =>
      match evaluated with
      | [] => .error (strL "TypeError: cannot read properties of undefined")
      | [v] =>
        .ok (match v with
             | .bool b => b
             | _ => false)
      | _ => .ok false

/-- Comparison semantics as the specification words them: `Undefined` operand
⇒ boolean false; two numbers ⇒ numeric comparison; two strings or one string
and one number ⇒ comparison of the textual forms; anything else ⇒
`Undefined`.  (Spec-side definition, to be compared with `esiOnPop`.) -/
def esiCompareSpec (op : List Char) (left right : EsiValue) : EsiValue :=
  match left, right with
  | .undef, _ => .bool false
  | _, .undef => .bool false
  | .num a, .num b => .bool (jsCmpNat op a b)
  | .num a, .str b => .bool (jsCmpStr op (natToStr a) b)
  | .str a, .num b => .bool (jsCmpStr op a (natToStr b))
  | .str a, .str b => .bool (jsCmpStr op a b)
  | _, _ => (.undef)

/-- C8: for every comparison operator in the postfix evaluator, popping the
two operands yields boolean false when either is `Undefined`; the numeric
comparison when both are numbers; the textual comparison when both are strings
or one is a string and one a number; and `Undefined` for every other operand
combination (e.g. a boolean operand). -/
theorem C8_comparison_semantics (op : List Char) (hop : op ∈ comparisonOpNames)
    (l r : EsiValue) (rest : List EsiValue) :
    esiOnPop (.operator op) (r :: l :: rest) = .ok (esiCompareSpec op l r, rest) := by
  fin_cases hop <;> cases l <;> cases r <;> rfl

/-- Witness for `C8_comparison_semantics` at `1 == 1`. -/
theorem C8_comparison_semantics_witness :
    esiOnPop (.operator (strL "==")) [.num 1, .num 1] =
      .ok (esiCompareSpec (strL "==") (.num 1) (.num 1), []) :=
  C8_comparison_semantics (strL "==") (by decide) (.num 1) (.num 1) []

/-- C3, counterexample: evaluating a `when` test with mismatched parentheses
does not yield `false` — `evaluateTokens` throws `Mismatched parentheses.`
and `evaluate` does not catch it (nor does any caller in the transformer), so
the error propagates. -/
theorem C3_counterexample_mismatched_parens_throws :
    esiEvaluate none (strL "(1==1") = .error (strL "Mismatched parentheses.") := by
  rfl

theorem drainStack_error_of_openParen {stack : List EsiValue}
    (out : List EsiValue) (h : EsiValue.openParen ∈ stack) :
    ∃ e, drainStack stack out = .error e := by
  induction stack generalizing out with
  | nil => cases h
  | cons t rest ih =>
    by_cases ht : t = .openParen
    · subst ht
      exact ⟨strL "Mismatched parentheses.", by simp [drainStack]⟩
    · have hm : EsiValue.openParen ∈ rest := by
        cases h with
        | head => exact absurd rfl ht
        | tail _ hh => exact hh
      cases hpop : esiOnPop t out with
      | error e => exact ⟨e, by simp [drainStack, ht, hpop]⟩
      | ok p =>
        obtain ⟨r, out1⟩ := p
        obtain ⟨e, he⟩ := ih (r :: out1) hm
        exact ⟨e, by simp [drainStack, ht, hpop, he]⟩

theorem applyWhileHigher_keeps_openParen (o1 : ParserOpDef) :
    ∀ (stack out : List EsiValue), EsiValue.openParen ∈ stack →
      (∃ e, applyWhileHigher o1 stack out = .error e) ∨
      (∃ stack1 out1, applyWhileHigher o1 stack out = .ok (stack1, out1) ∧
        EsiValue.openParen ∈ stack1) := by
  intro stack
  induction stack with
  | nil => intro out h; cases h
  | cons top rest ih =>
    intro out h
    by_cases htop : top = .openParen
    · right
      refine ⟨top :: rest, out, by simp [applyWhileHigher, htop], h⟩
    · have hm : EsiValue.openParen ∈ rest := by
        cases h with
        | head => exact absurd rfl htop
        | tail _ hh => exact hh
      by_cases hbreak : (o1.precedence > ((esiGetOperation top).getD ⟨0, []⟩).precedence ∨
          (o1.precedence = ((esiGetOperation top).getD ⟨0, []⟩).precedence ∧
            o1.assoc = strL "right"))
      · right
        exact ⟨top :: rest, out, by simp [applyWhileHigher, htop, hbreak], h⟩
      · cases hpop : esiOnPop top out with
        | error e =>
          left
          exact ⟨e, by simp [applyWhileHigher, htop, hbreak, hpop]⟩
        | ok p =>
          obtain ⟨r, out1⟩ := p
          rcases ih (r :: out1) hm with ⟨e, he⟩ | ⟨s1, o1', hok, hm1⟩
          · left
            exact ⟨e, by simp [applyWhileHigher, htop, hbreak, hpop, he]⟩
          · right
            exact ⟨s1, o1', by simp [applyWhileHigher, htop, hbreak, hpop, hok], hm1⟩

theorem shuntTokens_error_of_unclosed :
    ∀ (ts stack out : List EsiValue), EsiValue.closeParen ∉ ts →
      EsiValue.openParen ∈ stack →
      ∃ e, shuntTokens ts stack out = .error e := by
  intro ts
  induction ts with
  | nil =>
    intro stack out _ hm
    exact drainStack_error_of_openParen out hm
  | cons t ts ih =>
    intro stack out hc hm
    have hc' : EsiValue.closeParen ∉ ts := fun h => hc (List.mem_cons_of_mem _ h)
    have htne : t ≠ .closeParen := fun h => hc (h ▸ List.mem_cons_self _ _)
    by_cases ht : t = .openParen
    · subst ht
      obtain ⟨e, he⟩ := ih (.openParen :: stack) out hc' (List.mem_cons_self _ _)
      exact ⟨e, by simp [shuntTokens, he]⟩
    · cases hop : esiGetOperation t with
      | none =>
        obtain ⟨e, he⟩ := ih stack (t :: out) hc' hm
        exact ⟨e, by simp [shuntTokens, ht, htne, hop, he]⟩
      | some o1 =>
        rcases applyWhileHigher_keeps_openParen o1 stack out hm with
          ⟨e, he⟩ | ⟨s1, o1', hok, hm1⟩
        · exact ⟨e, by simp [shuntTokens, ht, htne, hop, he]⟩
        · obtain ⟨e, he⟩ := ih (t :: s1) o1' hc' (List.mem_cons_of_mem _ hm1)
          exact ⟨e, by simp [shuntTokens, ht, htne, hop, hok, he]⟩

theorem shuntTokens_error_of_mismatched :
    ∀ (ts : List EsiValue), EsiValue.openParen ∈ ts →
      EsiValue.closeParen ∉ ts →
      ∀ stack out, ∃ e, shuntTokens ts stack out = .error e := by
  intro ts
  induction ts with
  | nil => intro h; cases h
  | cons t ts ih =>
    intro hm hc stack out
    have hc' : EsiValue.closeParen ∉ ts := fun h => hc (List.mem_cons_of_mem _ h)
    have htne : t ≠ .closeParen := fun h => hc (h ▸ List.mem_cons_self _ _)
    by_cases ht : t = .openParen
    · subst ht
      obtain ⟨e, he⟩ :=
        shuntTokens_error_of_unclosed ts (.openParen :: stack) out hc'
          (List.mem_cons_self _ _)
      exact ⟨e, by simp [shuntTokens, he]⟩
    · have hm' : EsiValue.openParen ∈ ts := by
        cases hm with
        | head => exact absurd rfl ht
        | tail _ hh => exact hh
      cases hop : esiGetOperation t with
      | none =>
        obtain ⟨e, he⟩ := ih hm' hc' stack (t :: out)
        exact ⟨e, by simp [shuntTokens, ht, htne, hop, he]⟩
      | some o1 =>
        cases hrun : applyWhileHigher o1 stack out with
        | error e => exact ⟨e, by simp [shuntTokens, ht, htne, hop, hrun]⟩
        | ok p =>
          obtain ⟨s1, o1'⟩ := p
          obtain ⟨e, he⟩ := ih hm' hc' (t :: s1) o1'
          exact ⟨e, by simp [shuntTokens, ht, htne, hop, hrun, he]⟩

/-- C3, amended: a `when` test whose tokens contain an unmatched open
parenthesis (an open paren but no close paren at all) makes `evaluate` throw —
it never returns `false`; the `choose` handler and `evaluate` have no catch,
so the error propagates out of the transformer rather than deselecting the
branch. -/
theorem C3_mismatched_parens_error (vars : Option VarsFn) (expr : List Char)
    (ts : List EsiValue) (htok : esiTokenize vars expr = .ok ts)
    (hopen : EsiValue.openParen ∈ ts) (hclose : EsiValue.closeParen ∉ ts) :
    ∃ e, esiEvaluate vars expr = .error e := by
  obtain ⟨e, he⟩ := shuntTokens_error_of_mismatched ts hopen hclose [] []
  refine ⟨e, ?_⟩
  simp [esiEvaluate, htok, evaluateTokens, he]

/-- Witness for `C3_mismatched_parens_error` at the expression `(1==1`. -/
theorem C3_mismatched_parens_error_witness :
    ∃ e, esiEvaluate none (strL "(1==1") = .error e :=
  C3_mismatched_parens_error none (strL "(1==1")
    [.openParen, .num 1, .operator (strL "=="), .num 1]
    (by rfl) (by decide) (by decide)

/-! ## `src/XmlStreamer.ts`: the chunk recognizer

The two tag regexes
(`regexXmlTagOpenOrClose` / `regexXmlTagOpenOrCloseNoDefaultNS`, the latter
requiring a namespace prefix) are embedded as recursive matchers.  The
attribute sub-pattern admits no regex backtracking beyond what the matchers
reproduce (name characters, `:`, `=`, and quote classes are disjoint), and
re-extracting the attributes with `regexXmlAttr` over the matched attribute
substring yields exactly the pairs collected in one pass here. -/

def isAlphaChar (c : Char) : Bool :=
  (65 ≤ c.val ∧ c.val ≤ 90) ∨ (97 ≤ c.val ∧ c.val ≤ 122)

/-- `[-a-zA-Z0-9]`. -/
def isNameChar (c : Char) : Bool := isAlphaChar c ∨ isDigitChar c ∨ c = '-'

/-- `[a-zA-Z][-a-zA-Z0-9]*`. -/
def parseXmlName (s : List Char) : Option (List Char × List Char) :=
  match s with
  | c :: cs =>
    if isAlphaChar c then
      let nm := c :: cs.takeWhile isNameChar
      some (nm, cs.drop (cs.takeWhile isNameChar).length)
    else none
  | [] => none

/-- `(name:)?name` (prefix required when `requirePfx`, as in the
no-default-namespace regex).  When a `:` follows the first name but no name
follows the colon, the optional prefix cannot match and the prefix-less
reading is returned (the caller then fails on the `:`), mirroring regex
backtracking. -/
def parseFullname (requirePfx : Bool) (s : List Char) :
    Option (List Char × List Char) :=
  match parseXmlName s with
  | none => none
  | some (n1, r1) =>
    match r1 with
    | ':' :: r2 =>
      match parseXmlName r2 with
      | some (n2, r3) => some (n1 ++ ':' :: n2, r3)
      | none => if requirePfx then none else some (n1, r1)
    | _ => if requirePfx then none else some (n1, r1)

/-- The closing part of a quoted attribute value `q[^q]*q`: the value and the
rest after the closing quote. -/
def parseQuotedValue (q : Char) (r3 : List Char) :
    Option (List Char × List Char) :=
  match r3.drop (r3.takeWhile (fun c => c ≠ q)).length with
  | q2 :: r4 =>
    if q2 = q then some (r3.takeWhile (fun c => c ≠ q), r4) else none
  | [] => none

/-- One attribute: `(name:)?name=("…"|'…')`; the raw (undecoded) value is
returned. -/
def parseAttrAt (s : List Char) : Option ((List Char × List Char) × List Char) :=
  match parseFullname false s with
  | none => none
  | some (full, r1) =>
    match r1 with
    | '=' :: r2 =>
      match r2 with
      | q :: r3 =>
        if q = Char.ofNat 34 then
          (parseQuotedValue (Char.ofNat 34) r3).map (fun vr => ((full, vr.1), vr.2))
        else if q = squote then
          (parseQuotedValue squote r3).map (fun vr => ((full, vr.1), vr.2))
        else none
      | [] => none
    | _ => none

/-- The attrs group `(\s+ attr)*`: greedy repetition; a failing iteration
consumes nothing. -/
def parseAttrsLoop : Nat → List Char → List (List Char × List Char) →
    (List (List Char × List Char) × List Char)
  | 0, s, acc => (acc, s)
  | fuel + 1, s, acc =>
    let ws := s.takeWhile jsIsSpace
    if ws = [] then (acc, s)
    else
      match parseAttrAt (s.drop ws.length) with
      | some ((k, v), rest) => parseAttrsLoop fuel rest (acc ++ [(k, v)])
      | none => (acc, s)

structure TagParse where
  isClose : Bool
  selfClosing : Bool
  fullname : List Char
  rawAttrs : List (List Char × List Char)
  len : Nat
deriving DecidableEq, Repr

/-- The tail of the open-tag alternative after the attributes and `\s*`:
an optional `/` directly before the `>`. -/
def openTagTail (full : List Char) (rawAttrs : List (List Char × List Char))
    (r3 : List Char) (slen : Nat) : Option TagParse :=
  match r3 with
  | '/' :: '>' :: _ => some ⟨false, true, full, rawAttrs, slen - r3.length + 2⟩
  | '>' :: _ => some ⟨false, false, full, rawAttrs, slen - r3.length + 1⟩
  | _ => none

/-- The `tagOpen` alternative of the complete-tag regex, applied to the text
after the `<` (`slen` is the length from the `<`). -/
def tryOpenTag (requirePfx : Bool) (slen : Nat) (r0 : List Char) : Option TagParse :=
  match parseFullname requirePfx r0 with
  | none => none
  | some (full, r1) =>
    openTagTail full (parseAttrsLoop r1.length r1 []).1
      ((parseAttrsLoop r1.length r1 []).2.drop
        ((parseAttrsLoop r1.length r1 []).2.takeWhile jsIsSpace).length) slen

def closeTagTail (full : List Char) (r3 : List Char) (slen : Nat) :
    Option TagParse :=
  match r3 with
  | '>' :: _ => some ⟨true, false, full, [], slen - r3.length + 1⟩
  | _ => none

/-- The `tagClose` alternative, applied to the text after the `</`. -/
def tryCloseTag (requirePfx : Bool) (slen : Nat) (r1 : List Char) : Option TagParse :=
  match parseFullname requirePfx r1 with
  | none => none
  | some (full, r2) =>
    closeTagTail full (r2.drop (r2.takeWhile jsIsSpace).length) slen

/-- Try the complete-tag regex at the start of `s`: `<`, then the `tagOpen`
alternative, then the `tagClose` alternative. -/
def tryTagAt (requirePfx : Bool) (s : List Char) : Option TagParse :=
  match s with
  | '<' :: r0 =>
    match tryOpenTag requirePfx s.length r0 with
    | some tp => some tp
    | none =>
      match r0 with
      | '/' :: r1 => tryCloseTag requirePfx s.length r1
      | _ => none
  | _ => none

/-- Leftmost match of the complete-tag regex: position and parse. -/
def findTagMatch (requirePfx : Bool) : Nat → List Char → Option (Nat × TagParse)
  | 0, _ => none
  | fuel + 1, s =>
    match s with
    | [] => none
    | _ :: cs =>
      match tryTagAt requirePfx s with
      | some tp => some (0, tp)
      | none => (findTagMatch requirePfx fuel cs).map (fun pt => (pt.1 + 1, pt.2))

/-- `regexXmlTagMaybeOpenOrClose = /<((?<tagOpen>[a-zA-Z])|(?<tagClose>\/([a-zA-Z])))[^>]*$/`
tried at the start of `s`: `<`, then the ordered alternation. -/
def tryMaybeTagAt (s : List Char) : Bool :=
  match s with
  | '<' :: r0 =>
    (match r0 with
     | c :: rest => isAlphaChar c && rest.all (fun x => x ≠ '>')
     | [] => false) ||
    (match r0 with
     | '/' :: c :: rest => isAlphaChar c && rest.all (fun x => x ≠ '>')
     | _ => false)
  | _ => false

/-- Leftmost match position of the maybe-tag regex. -/
def findMaybeTagPos : Nat → List Char → Option Nat
  | 0, _ => none
  | _ + 1, [] => none
  | fuel + 1, c :: cs =>
    if tryMaybeTagAt (c :: cs) then some 0
    else (findMaybeTagPos fuel cs).map (· + 1)

inductive ParseXmlChunkResult where
  | text (content : List Char) (remaining : List Char)
  | elementOpen (fullname : List Char) (attrs : List (List Char × List Char))
      (remaining : List Char)
  | elementSelfClose (fullname : List Char) (attrs : List (List Char × List Char))
      (remaining : List Char)
  | elementClose (fullname : List Char) (remaining : List Char)
  | unknown (remaining : List Char)
deriving DecidableEq, Repr

/-- `parseXmlStringChunk(xmlString, options)`; `ignoreDefaultTags` selects the
prefix-mandatory regex.  Attribute values are `xmlDecode`d and collected into
the JS attrs object (`attrs[attrName] = value`). -/
def parseXmlStringChunk (xmlString : List Char) (ignoreDefaultTags : Bool) :
    ParseXmlChunkResult :=
  match findTagMatch ignoreDefaultTags xmlString.length xmlString with
  | some (pos, tp) =>
    if pos > 0 then .text (xmlString.take pos) (xmlString.drop pos)
    else
      let remaining := xmlString.drop tp.len
      if tp.isClose then .elementClose tp.fullname remaining
      else
        let attrs := tp.rawAttrs.foldl
          (fun acc kv => jsUpsert acc kv.1 (xmlDecode kv.2)) []
        if tp.selfClosing then .elementSelfClose tp.fullname attrs remaining
        else .elementOpen tp.fullname attrs remaining
  | none =>
    match findMaybeTagPos xmlString.length xmlString with
    | some pos =>
      if pos > 0 then .text (xmlString.take pos) (xmlString.drop pos)
      else .unknown xmlString
    | none => .text xmlString []

/-! ## `src/StreamerState.ts` -/

structure StreamerState where
  bufferedString : List Char
  postponedString : Option (List Char)
deriving DecidableEq, Repr

def StreamerState.applyPostponedXmlString (ss : StreamerState) : StreamerState :=
  match ss.postponedString with
  | some p => ⟨ss.bufferedString ++ p, none⟩
  | none => ss

/-- `StreamerState.append`. -/
def StreamerState.appendStr (ss : StreamerState) (str : List Char) : StreamerState :=
  let ss1 := ss.applyPostponedXmlString
  ⟨ss1.bufferedString ++ str, ss1.postponedString⟩

/-! ## `EsiTransformer.xmlStreamerBeforeProcess` (the ESI-comment
pre-processor of `src/EsiTransformer.ts`) -/

/-- JS `String.prototype.indexOf(pat, start)`. -/
def indexOfFrom (s pat : List Char) (start : Nat) : Option Nat :=
  (List.range (s.length + 1)).find?
    (fun i => start ≤ i ∧ pat.isPrefixOf (s.drop i))

/-- JS `String.prototype.lastIndexOf(pat)`. -/
def lastIndexOf (s pat : List Char) : Option Nat :=
  ((List.range (s.length + 1)).filter (fun i => pat.isPrefixOf (s.drop i))).getLast?

def removeAt (s : List Char) (p n : Nat) : List Char :=
  s.take p ++ s.drop (p + n)

/-- The marker-removal loop of `xmlStreamerBeforeProcess`: alternately remove
`<!--esi` openers (out of comment) and `-->` closers (in comment), searching
from the running position `pos`.  Fueled; each recursive step removes at least
three characters. -/
def esiCommentStripLoop : Nat → Bool → Nat → List Char → Bool × List Char
  | 0, isIn, _, s => (isIn, s)
  | fuel + 1, isIn, pos, s =>
    if isIn then
      match indexOfFrom s (strL "-->") pos with
      | none => (true, s)
      | some p => esiCommentStripLoop fuel false p (removeAt s p 3)
    else
      match indexOfFrom s (strL "<!--esi") pos with
      | none => (false, s)
      | some p =>
        let s1 := removeAt s p 7
        match indexOfFrom s1 (strL "-->") p with
        | none => (true, s1)
        | some q => esiCommentStripLoop fuel false q (removeAt s1 q 3)

/-- `EsiTransformer.xmlStreamerBeforeProcess`: strip comment markers, then
carve off a buffer tail that is a proper prefix of a marker into
`postponedString` — but only when that tail starts after position 0
(`sepPos > 0` in the source). -/
def xmlStreamerBeforeProcess (isInEsiComment : Bool) (ss : StreamerState) :
    Bool × StreamerState :=
  let r := esiCommentStripLoop (ss.bufferedString.length + 1) isInEsiComment 0
    ss.bufferedString
  let isIn1 := r.1
  let buf1 := r.2
  let sepPos : Int :=
    if isIn1 then
      if (strL "--").isSuffixOf buf1 then
        match lastIndexOf buf1 (strL "--") with
        | some i => (i : Int)
        | none => -1
      else if (strL "-").isSuffixOf buf1 then
        match lastIndexOf buf1 (strL "-") with
        | some i => (i : Int)
        | none => -1
      else -1
    else
      if (strL "<").isSuffixOf buf1 ∨ (strL "<!").isSuffixOf buf1 ∨
          (strL "<!-").isSuffixOf buf1 ∨ (strL "<!--").isSuffixOf buf1 ∨
          (strL "<!--e").isSuffixOf buf1 ∨ (strL "<!--es").isSuffixOf buf1 then
        match lastIndexOf buf1 (strL "<") with
        | some i => (i : Int)
        | none => -1
      else -1
  if sepPos > 0 then
    (isIn1, ⟨buf1.take sepPos.toNat, some (buf1.drop sepPos.toNat)⟩)
  else
    (isIn1, ⟨buf1, ss.postponedString⟩)

/-! ## `src/XmlModel.ts`: the `XmlElement` constructor and namespace
resolution -/

/-- `XmlElement.parseName`: JS `name.split(':')` destructured into
`[prefix, localName]`; a single part means no prefix. -/
def parseName (name : List Char) : Option (List Char) × List Char :=
  match name.splitOn ':' with
  | [single] => (none, single)
  | p :: l :: _ => (some p, l)
  | [] => (none, [])

/-- `XmlElement.addAttr(key, value, resolveNamespace = false)` onto an attrs
object: unprefixed attributes get `namespace = null` and are keyed by local
name; prefixed ones keep `namespace === undefined` and are keyed
`prefix:localName`. -/
def addAttrNoResolve (attrsMap : List (List Char × XmlAttr)) (key value : List Char) :
    List (List Char × XmlAttr) :=
  let pn := parseName key
  match pn.1 with
  | none => jsUpsert attrsMap pn.2 ⟨pn.2, none, some none, value⟩
  | some p => jsUpsert attrsMap (p ++ ':' :: pn.2) ⟨pn.2, some p, none, value⟩

/-- The attrs/namespace-defs split of the `XmlElement` constructor: `xmlns`
and `xmlns:…` keys populate `namespaceDefs`, the rest go through `addAttr`. -/
def xmlElementCtorAttrs (entries : List (List Char × List Char)) :
    List (List Char × XmlAttr) × List (List Char × List Char) :=
  entries.foldl
    (fun acc kv =>
      if kv.1 = strL "xmlns" then (acc.1, jsUpsert acc.2 [] kv.2)
      else if (strL "xmlns:").isPrefixOf kv.1 then
        (acc.1, jsUpsert acc.2 (kv.1.drop 6) kv.2)
      else (addAttrNoResolve acc.1 kv.1 kv.2, acc.2))
    ([], [])

structure XmlCtxDoc where
  namespaceDefs : List (List Char × List Char)
  allowUnknownPfx : Bool   -- source field: allowUnknownNamespacePrefixes
deriving DecidableEq, Repr

/-- `XmlElement.lookupNamespace`: own defs, then ancestors (`chain`, nearest
first — the `parent` walk), then the document; unknown prefixes are an error
unless the document allows them (then the empty namespace). -/
def lookupNamespaceEnv (doc : XmlCtxDoc)
    (chain : List (List (List Char × List Char))) (pfx? : Option (List Char)) :
    Except (List Char) (List Char) :=
  match chain with
  | [] =>
    match jsLookup doc.namespaceDefs (pfx?.getD []) with
    | some ns => .ok ns
    | none =>
      if doc.allowUnknownPfx then .ok []
      else .error (strL "Unknown namespace prefix")
  | defs :: rest =>
    match jsLookup defs (pfx?.getD []) with
    | some ns => .ok ns
    | none => lookupNamespaceEnv doc rest pfx?

def jsRemove {α : Type} (m : List (List Char × α)) (key : List Char) :
    List (List Char × α) :=
  match m with
  | [] => []
  | (k, v) :: rest => if k = key then rest else (k, v) :: jsRemove rest key

/-- The attribute re-keying of `applyNamespaces`: each attribute whose
`namespace` is still `undefined` is resolved (prefixed via the chain,
unprefixed to `null`), deleted under its old key and stored under
`(namespace ?? '') + '|' + localName`.  The snapshot is the `Object.entries`
taken before the loop. -/
def rekeyAttrs (doc : XmlCtxDoc) (chain : List (List (List Char × List Char))) :
    List (List Char × XmlAttr) → List (List Char × XmlAttr) →
    Except (List Char) (List (List Char × XmlAttr))
  | [], cur => .ok cur
  | (k, a) :: rest, cur =>
    if a.ns = none then
      match
        (match a.localPfx with
         | some p => (lookupNamespaceEnv doc chain (some p)).map some
         | none => .ok none : Except (List Char) (Option (List Char)))
      with
      | .error e => .error e
      | .ok nsv =>
        let a1 : XmlAttr := ⟨a.localName, a.localPfx, some nsv, a.value⟩
        let newKey := nsv.getD [] ++ '|' :: a.localName
        rekeyAttrs doc chain rest (jsUpsert (jsRemove cur k) newKey a1)
    else rekeyAttrs doc chain rest cur

mutual

/-- `XmlElement.applyNamespaces`, fueled (one unit per tree level): children
first, then the element's own namespace (when still `undefined`), then the
attribute re-keying. -/
def applyNsNode (doc : XmlCtxDoc) :
    Nat → List (List (List Char × List Char)) → XmlNode →
    Except (List Char) XmlNode
  | 0, _, _ => .error (strL "fuel exhausted (embedding artifact)")
  | _ + 1, _, .text s => .ok (.text s)
  | fuel + 1, chain, .elem pfx name attrs nsds ns cs =>
    let chain1 := nsds :: chain
    match applyNsList doc fuel chain1 cs with
    | .error e => .error e
    | .ok cs1 =>
      match
        (match ns with
         | some u => .ok (some u)
         | none => (lookupNamespaceEnv doc chain1 pfx).map some :
          Except (List Char) (Option (List Char)))
      with
      | .error e => .error e
      | .ok ns1 =>
        match rekeyAttrs doc chain1 attrs attrs with
        | .error e => .error e
        | .ok attrs1 => .ok (.elem pfx name attrs1 nsds ns1 cs1)

def applyNsList (doc : XmlCtxDoc) :
    Nat → List (List (List Char × List Char)) → List XmlNode →
    Except (List Char) (List XmlNode)
  | 0, _, _ => .error (strL "fuel exhausted (embedding artifact)")
  | _ + 1, _, [] => .ok []
  | fuel + 1, chain, c :: rest =>
    match applyNsNode doc fuel chain c with
    | .error e => .error e
    | .ok c1 =>
      match applyNsList doc fuel chain rest with
      | .error e => .error e
      | .ok rest1 => .ok (c1 :: rest1)

end

/-! ## `XmlStreamerContext` -/

/-- An element that is still open: its tag data plus the children collected so
far.  (In the source the open element already sits — by reference — in its
parent's child list; since nothing else can be appended to the parent while
the element is open, appending it on close/flush yields the same lists.) -/
structure OpenElem where
  localPfx : Option (List Char)
  localName : List Char
  attrs : List (List Char × XmlAttr)
  namespaceDefs : List (List Char × List Char)
  childrenSoFar : List XmlNode

/-- `addStringSegment`: merge with a trailing string child. -/
def addStringSegment (segments : List XmlNode) (seg : List Char) : List XmlNode :=
  if seg = [] then segments
  else
    match segments.getLast? with
    | some (.text t) => segments.dropLast ++ [.text (t ++ seg)]
    | _ => segments ++ [.text seg]

/-- Append a non-string node to the current insertion target. -/
def pushNode (children : List XmlNode) (stack : List OpenElem) (node : XmlNode) :
    List XmlNode × List OpenElem :=
  match stack with
  | [] => (children ++ [node], [])
  | top :: rest =>
    (children, { top with childrenSoFar := top.childrenSoFar ++ [node] } :: rest)

/-- Append a text segment to the current insertion target. -/
def pushText (children : List XmlNode) (stack : List OpenElem) (seg : List Char) :
    List XmlNode × List OpenElem :=
  match stack with
  | [] => (addStringSegment children seg, [])
  | top :: rest =>
    (children, { top with childrenSoFar := addStringSegment top.childrenSoFar seg } :: rest)

/-- The `while(true)` loop of `XmlStreamerContext.process`.  Fueled; every
non-terminating iteration consumes at least one buffered character. -/
def processLoop (ignoreDefaultTags : Bool) :
    Nat → List Char → List XmlNode → List OpenElem →
    Except (List Char) (List Char × List XmlNode × List OpenElem)
  | 0, buf, ch, st => .ok (buf, ch, st)
  | fuel + 1, buf, ch, st =>
    if buf = [] then .ok (buf, ch, st)
    else
      match parseXmlStringChunk buf ignoreDefaultTags with
      | .unknown rem => .ok (rem, ch, st)
      | .text content rem =>
        let r := pushText ch st content
        processLoop ignoreDefaultTags fuel rem r.1 r.2
      | .elementOpen fullname attrs rem =>
        let pn := parseName fullname
        let anx := xmlElementCtorAttrs attrs
        let el : OpenElem := ⟨pn.1, pn.2, anx.1, anx.2, []⟩
        processLoop ignoreDefaultTags fuel rem ch (el :: st)
      | .elementSelfClose fullname attrs rem =>
        let pn := parseName fullname
        let anx := xmlElementCtorAttrs attrs
        let node : XmlNode := .elem pn.1 pn.2 anx.1 anx.2 none []
        let r := pushNode ch st node
        processLoop ignoreDefaultTags fuel rem r.1 r.2
      | .elementClose fullname rem =>
        match st with
        | [] => .error (strL "closing-empty-stack")
        | top :: rest =>
          if localFullname top.localPfx top.localName ≠ fullname then
            .error (strL "closing-unmatched")
          else
            let node : XmlNode :=
              .elem top.localPfx top.localName top.attrs top.namespaceDefs none
                top.childrenSoFar
            let r := pushNode ch rest node
            processLoop ignoreDefaultTags fuel rem r.1 r.2

structure XmlCtx where
  doc : XmlCtxDoc
  ignoreDefaultTags : Bool
  useEsiBeforeProcess : Bool   -- options.beforeProcess = the ESI hook, when set
  children : List XmlNode
  openStack : List OpenElem
  ss : StreamerState
  isInEsiComment : Bool        -- the ESI transformer's cross-chunk flag
  fuelChars : Nat              -- embedding bookkeeping: total characters appended

/-- `XmlStreamerContext.process`. -/
def XmlCtx.process (ctx : XmlCtx) : Except (List Char) XmlCtx :=
  let ss1 := ctx.ss.applyPostponedXmlString
  let bp :=
    if ctx.useEsiBeforeProcess then xmlStreamerBeforeProcess ctx.isInEsiComment ss1
    else (ctx.isInEsiComment, ss1)
  let isIn := bp.1
  let ss2 := bp.2
  match processLoop ctx.ignoreDefaultTags (ss2.bufferedString.length + 1)
      ss2.bufferedString ctx.children ctx.openStack with
  | .error e => .error e
  | .ok (buf1, ch1, st1) =>
    match applyNsList ctx.doc (ctx.fuelChars + 1) [] ch1 with
    | .error e => .error e
    | .ok ch2 =>
      .ok { ctx with
        children := ch2, openStack := st1,
        ss := ⟨buf1, ss2.postponedString⟩, isInEsiComment := isIn }

/-- `XmlStreamerContext.append`. -/
def XmlCtx.appendChunk (ctx : XmlCtx) (xmlString : List Char) :
    Except (List Char) XmlCtx :=
  XmlCtx.process { ctx with
    ss := ctx.ss.appendStr xmlString,
    fuelChars := ctx.fuelChars + xmlString.length }

def openElemToNode (o : OpenElem) : XmlNode :=
  .elem o.localPfx o.localName o.attrs o.namespaceDefs none o.childrenSoFar

/-- `flush(force)` clears `openElements`; the partially-built elements keep
the children they have so far and remain in their parents (folding the stack
from its top down to the bottom-most element, which is a root child). -/
def collapseStack (stack : List OpenElem) (ch : List XmlNode) : List XmlNode :=
  match stack with
  | [] => ch
  | top :: rest =>
    ch ++ [rest.foldl
      (fun acc next =>
        .elem next.localPfx next.localName next.attrs next.namespaceDefs none
          (next.childrenSoFar ++ [acc]))
      (openElemToNode top)]

/-- `XmlStreamerContext.flush`. -/
def XmlCtx.flush (ctx : XmlCtx) (force : Bool) : XmlCtx :=
  let ss1 := ctx.ss.applyPostponedXmlString
  let afterText :=
    if ss1.bufferedString ≠ [] then
      let r := pushText ctx.children ctx.openStack ss1.bufferedString
      { ctx with children := r.1, openStack := r.2, ss := ⟨[], none⟩ }
    else { ctx with ss := ss1 }
  if force then
    { afterText with
      children := collapseStack afterText.openStack afterText.children,
      openStack := [] }
  else afterText

/-! ## `src/EsiTransformer.ts`

The transformer with its `buildTransform`/`walkXmlElements` plumbing from
`src/XmlModel.ts`.  The functions are mutually recursive over the tree and are
fueled (one unit per mutual call; any sufficiently large fuel gives the JS
behaviour, and the universally quantified theorems below relate adjacent fuel
levels exactly as the JS methods call one another).  The single piece of
mutable transformer state, `applyVars`, is threaded through every call and —
matching the JS `try`/`finally` blocks — survives thrown errors, so results
are `Except … × Bool`.  `fetch`, `new URL(src, base)` and response reading
are host collaborators and enter as oracle fields of `EsiEnv`. -/

def esiNamespaceStr : List Char := strL "http://www.edge-delivery.org/esi/1.0"

inductive EsiErr where
  | includeError (el : XmlNode) (msg : List Char)
  | structureError (el : XmlNode) (msg : List Char)
  | jsError (msg : List Char)
  | fuelExhausted   -- embedding artifact, never produced at sufficient fuel

inductive CbResult where
  | remove                     -- callback returned null
  | single (n : XmlNode)       -- callback returned one node (or a string)
  | many (ns : List XmlNode)   -- callback returned a list

structure EsiEnv where
  vars : Option VarsFn
  fetchStatus : List Char → Nat          -- status of GET <resolved url>
  fetchText : List Char → List Char      -- res.text() of GET <resolved url>
  resolveUrl : List Char → List Char     -- new URL(src, this.url), host-provided
  processIncludeResponse : Option (List Char → List Char)
  handleIncludeError : Option (XmlNode → Option (List Char))
    -- the customErrorString the configured handler leaves on the event

/-- The filter predicate used by `try`/`choose`:
`tag instanceof XmlElement && tag.namespace === EsiTransformer.namespace &&
tag.localName === name`. -/
def isEsiTag (name : List Char) (n : XmlNode) : Bool :=
  match n with
  | .elem _ nm _ _ ns _ => ns = some esiNamespaceStr ∧ nm = name
  | .text _ => false

/-- `new XmlElement(document, '_replace', null, children)`. -/
def mkReplace (children : List XmlNode) : XmlNode :=
  .elem none (strL "_replace") [] [] none children

/-- The `_replace`-splicing `reduce` of `buildTransform`'s after-walk. -/
def flattenReplace (ns : List XmlNode) : List XmlNode :=
  ns.foldl
    (fun acc n =>
      match n with
      | .elem _ nm _ _ _ cs =>
        if nm = strL "_replace" then acc ++ cs else acc ++ [n]
      | .text _ => acc ++ [n])
    []

/-- How `buildTransform` installs a callback result in the parent. -/
def wrapCb : CbResult → XmlNode
  | .remove => mkReplace []
  | .many l => mkReplace l
  | .single n => n

/-- The candidate loop of the `include` branch: first `src` with a 2xx
response (the host `fetch` is the `fetchStatus` oracle). -/
def findIncludeResult (env : EsiEnv) : List (List Char) → Option (List Char)
  | [] => none
  | src :: rest =>
    let url := env.resolveUrl src
    if 200 ≤ env.fetchStatus url ∧ env.fetchStatus url < 300 then some url
    else findIncludeResult env rest

/-- The candidate list of the `include` branch: variable-substituted `src`
(reading `.value` of a missing `src` attribute is a JS `TypeError`), then the
optional `alt`. -/
def includeCandidates (env : EsiEnv) (el : XmlNode) :
    Except EsiErr (List (List Char)) :=
  match jsLookup el.attrs (strL "src") with
  | none => .error (.jsError (strL "TypeError: cannot read properties of undefined"))
  | some srcAttr =>
    match applyEsiVariables (some srcAttr.value) env.vars with
    | .error e => .error (.jsError e)
    | .ok src? =>
      match applyEsiVariables ((jsLookup el.attrs (strL "alt")).map XmlAttr.value)
          env.vars with
      | .error e => .error (.jsError e)
      | .ok alt? =>
        .ok ((match src? with | some s => [s] | none => []) ++
             (match alt? with | some a => [a] | none => []))

/-- The `include` branch of the transformer callback (`serFuel` is the fuel
used to serialize the element into the `EsiIncludeError` message). -/
def includeBranch (env : EsiEnv) (serFuel : Nat) (el : XmlNode) :
    Except EsiErr (Option CbResult) :=
  match includeCandidates env el with
  | .error e => .error e
  | .ok srcs =>
    match findIncludeResult env srcs with
    | some url =>
      match env.processIncludeResponse with
      | none => .ok (some (.single (.text (env.fetchText url))))
      | some f => .ok (some (.single (.text (f url))))
    | none =>
      match (match env.handleIncludeError with
             | none => none
             | some h => h el : Option (List Char)) with
      | some s => .ok (some (.single (.text s)))
      | none =>
        match applyEsiVariables ((jsLookup el.attrs (strL "onerror")).map
            XmlAttr.value) env.vars with
        | .error e => .error (.jsError e)
        | .ok onerr =>
          if onerr = some (strL "continue") then .ok (some .remove)
          else
            .error (.includeError el
              (strL "Could not include " ++ serializeNodeFuel serFuel el))

/-- The first-true-`when` loop of the `choose` branch (each evaluation may
throw). -/
def findActiveWhen (vars : Option VarsFn) :
    List XmlNode → Except (List Char) (Option XmlNode)
  | [] => .ok none
  | w :: rest =>
    match esiEvaluate vars (((jsLookup w.attrs (strL "test")).map
        XmlAttr.value).getD []) with
    | .error e => .error e
    | .ok b => if b then .ok (some w) else findActiveWhen vars rest

mutual

/-- `EsiTransformer.transformElementNode`: strings are variable-substituted in
`applyVars` mode (the source's non-null `!` assertion holds since the input is
non-null); elements run through the `buildTransform` walk. -/
def transformElementNode (env : EsiEnv) :
    Nat → Bool → XmlNode → (Except EsiErr (Option XmlNode)) × Bool
  | 0, av, _ => (.error .fuelExhausted, av)
  | _ + 1, av, .text s =>
    if av then
      match applyEsiVariables (some s) env.vars with
      | .error e => (.error (.jsError e), av)
      | .ok r => (.ok (some (.text (r.getD []))), av)
    else (.ok (some (.text s)), av)
  | fuel + 1, av, .elem p n a d ns cs =>
    applyTransformNode env fuel av (.elem p n a d ns cs)

/-- `buildTransform`'s `applyTransform`: wrap in a `_root`, walk, then read
off the root's (flattened) children: none ⇒ `null`, one ⇒ that node, many ⇒ a
`_replace` wrapper. -/
def applyTransformNode (env : EsiEnv) :
    Nat → Bool → XmlNode → (Except EsiErr (Option XmlNode)) × Bool
  | 0, av, _ => (.error .fuelExhausted, av)
  | fuel + 1, av, node =>
    match node with
    | .text s => (.ok (some (.text s)), av)
    | .elem p n a d ns cs =>
      match walkNode env fuel av (.elem p n a d ns cs) with
      | (.error e, av1) => (.error e, av1)
      | (.ok n1, av1) =>
        match flattenReplace [n1] with
        | [] => (.ok none, av1)
        | [x] => (.ok (some x), av1)
        | xs => (.ok (some (mkReplace xs)), av1)

/-- One node of `walkXmlElements` under `buildTransform`'s callbacks: run the
ESI callback (undefined on strings); a non-undefined result replaces the node
and stops recursion; otherwise descend into the children and splice
`_replace` wrappers (the after-walk).  Referential cycles cannot arise in the
tree-as-value embedding, so the source's cycle check is vacuous. -/
def walkNode (env : EsiEnv) :
    Nat → Bool → XmlNode → (Except EsiErr XmlNode) × Bool
  | 0, av, _ => (.error .fuelExhausted, av)
  | _ + 1, av, .text s => (.ok (.text s), av)
  | fuel + 1, av, .elem p n a d ns cs =>
    match esiCallback env fuel av (.elem p n a d ns cs) with
    | (.error e, av1) => (.error e, av1)
    | (.ok (some cb), av1) => (.ok (wrapCb cb), av1)
    | (.ok none, av1) =>
      match walkNodeList env fuel av1 cs with
      | (.error e, av2) => (.error e, av2)
      | (.ok cs1, av2) => (.ok (.elem p n a d ns (flattenReplace cs1)), av2)

def walkNodeList (env : EsiEnv) :
    Nat → Bool → List XmlNode → (Except EsiErr (List XmlNode)) × Bool
  | 0, av, _ => (.error .fuelExhausted, av)
  | _ + 1, av, [] => (.ok [], av)
  | fuel + 1, av, c :: rest =>
    match walkNode env fuel av c with
    | (.error e, av1) => (.error e, av1)
    | (.ok c1, av1) =>
      match walkNodeList env fuel av1 rest with
      | (.error e, av2) => (.error e, av2)
      | (.ok rest1, av2) => (.ok (c1 :: rest1), av2)

/-- The ESI dispatch callback passed to `buildTransform` (the body of
`transformElementNode`'s arrow function), branch for branch in source
order. -/
def esiCallback (env : EsiEnv) :
    Nat → Bool → XmlNode → (Except EsiErr (Option CbResult)) × Bool
  | 0, av, _ => (.error .fuelExhausted, av)
  | fuel + 1, av, node =>
    match node with
    | .text _ => (.ok none, av)
    | .elem _ n _ _ ns cs =>
      if ns ≠ some esiNamespaceStr then (.ok none, av)
      else if n = strL "comment" then (.ok (some .remove), av)
      else if n = strL "remove" then (.ok (some .remove), av)
      else if n = strL "include" then (includeBranch env (fuel + 1) node, av)
      else if n = strL "try" then
        match cs.filter (isEsiTag (strL "attempt")) with
        | [attemptTag] =>
          match cs.filter (isEsiTag (strL "except")) with
          | [exceptTag] =>
            -- applyVarsPrev = this.applyVars; this.applyVars = true; … finally restore
            match transformChildElements env fuel true attemptTag.children with
            | (.ok results, _) => (.ok (some (.many results)), av)
            | (.error e, av1) =>
              match e with
              | .includeError _ _ =>
                match transformChildElements env fuel av1 exceptTag.children with
                | (.ok results, _) => (.ok (some (.many results)), av)
                | (.error e2, _) => (.error e2, av)
              | _ => (.error e, av)
          | _ =>
            (.error (.structureError node
              (strL "esi:try requires exactly one esi:except tag as a direct child")), av)
        | _ =>
          (.error (.structureError node
            (strL "esi:try requires exactly one esi:attempt tag as a direct child")), av)
      else if n = strL "attempt" then
        (.error (.structureError node
          (strL "esi:attempt must be direct child of esi:try")), av)
      else if n = strL "except" then
        (.error (.structureError node
          (strL "esi:except must be direct child of esi:try")), av)
      else if n = strL "vars" then
        match transformChildElements env fuel true cs with
        | (.ok results, _) => (.ok (some (.many results)), av)
        | (.error e, _) => (.error e, av)
      else if n = strL "choose" then
        let whenTags := cs.filter (isEsiTag (strL "when"))
        if whenTags.length = 0 then
          (.error (.structureError node
            (strL "esi:choose must have at least one esi:when as direct child")), av)
        else if whenTags.any (fun w => jsLookup w.attrs (strL "test") = none) then
          (.error (.structureError node
            (strL "esi:when tags are required to have a test attribute.")), av)
        else
          let otherwiseTags := cs.filter (isEsiTag (strL "otherwise"))
          if otherwiseTags.length > 1 then
            (.error (.structureError node
              (strL "esi:choose must not have more than one esi:otherwise")), av)
          else
            match findActiveWhen env.vars whenTags with
            | .error e => (.error (.jsError e), av)
            | .ok active? =>
              match (match active? with
                     | some w => some w
                     | none => otherwiseTags.head? : Option XmlNode) with
              | none => (.ok (some .remove), av)
              | some branch =>
                match transformChildElements env fuel true branch.children with
                | (.ok results, _) => (.ok (some (.many results)), av)
                | (.error e, _) => (.error e, av)
      else if n = strL "when" then
        (.error (.structureError node
          (strL "esi:when must be direct child of esi:choose")), av)
      else if n = strL "otherwise" then
        (.error (.structureError node
          (strL "esi:otherwise must be direct child of esi:choose")), av)
      else
        (.error (.structureError node (strL "Unknown esi tag esi:" ++ n)), av)

/-- `EsiTransformer.transformChildElements`: transform each child, skip
`null` results, splice `_replace` wrappers. -/
def transformChildElements (env : EsiEnv) :
    Nat → Bool → List XmlNode → (Except EsiErr (List XmlNode)) × Bool
  | 0, av, _ => (.error .fuelExhausted, av)
  | _ + 1, av, [] => (.ok [], av)
  | fuel + 1, av, c :: rest =>
    match transformElementNode env fuel av c with
    | (.error e, av1) => (.error e, av1)
    | (.ok res, av1) =>
      match transformChildElements env fuel av1 rest with
      | (.error e, av2) => (.error e, av2)
      | (.ok tail, av2) =>
        match res with
        | none => (.ok tail, av2)
        | some (.elem p nm a2 d2 ns2 cs2) =>
          if nm = strL "_replace" then (.ok (cs2 ++ tail), av2)
          else (.ok (XmlNode.elem p nm a2 d2 ns2 cs2 :: tail), av2)
        | some (.text s) => (.ok (XmlNode.text s :: tail), av2)

end

/-! ## The `EsiTransformStream` pipeline (`src/XmlTransformStream.ts` +
`src/EsiTransformStream.ts`)

`dispatchCompleteTopLevelChildren` transforms and serializes each completed
top-level child in order and emits the text.  In the zipper embedding every
listed root child is complete (the bottom-most open element joins the list
only on close/flush), so the dispatch consumes the whole list. -/

def dispatchAll (env : EsiEnv) (fuel : Nat) :
    List XmlNode → Bool → Except EsiErr (List Char × Bool)
  | [], av => .ok ([], av)
  | c :: rest, av =>
    match transformElementNode env fuel av c with
    | (.error e, _) => .error e
    | (.ok res, av1) =>
      match dispatchAll env fuel rest av1 with
      | .error e => .error e
      | .ok (out, av2) => .ok (serializeStaticFuel fuel res ++ out, av2)

/-- The document `EsiTransformStream` installs: the `esi` prefix bound to the
ESI namespace. -/
def esiStreamDoc : XmlCtxDoc := ⟨[(strL "esi", esiNamespaceStr)], false⟩

def esiInitialCtx : XmlCtx :=
  ⟨esiStreamDoc, true, true, [], [], ⟨[], none⟩, false, 0⟩

def runEsiPipelineAux (env : EsiEnv) (fuel : Nat) :
    List (List Char) → XmlCtx → Bool →
    Except EsiErr (List Char × XmlCtx × Bool)
  | [], ctx, av => .ok ([], ctx, av)
  | chunk :: rest, ctx, av =>
    match ctx.appendChunk chunk with
    | .error e => .error (.jsError e)
    | .ok ctx1 =>
      match dispatchAll env fuel ctx1.children av with
      | .error e => .error e
      | .ok (out, av1) =>
        match runEsiPipelineAux env fuel rest { ctx1 with children := [] } av1 with
        | .error e => .error e
        | .ok (out2, ctx2, av2) => .ok (out ++ out2, ctx2, av2)

/-- The whole stream: append each chunk (dispatching completed top-level
children after each), then `flush(true)` and dispatch the rest.  The emitted
byte stream is the concatenation of the serialized transform results. -/
def runEsiPipeline (env : EsiEnv) (fuel : Nat) (chunks : List (List Char)) :
    Except EsiErr (List Char) :=
  match runEsiPipelineAux env fuel chunks esiInitialCtx false with
  | .error e => .error e
  | .ok (out, ctx1, av1) =>
    let ctx2 := ctx1.flush true
    match dispatchAll env fuel ctx2.children av1 with
    | .error e => .error e
    | .ok (out2, _) => .ok (out ++ out2)

/-- C1 (code bug): chunk independence fails.  For `S = "<!--esi-->"` and the
partition `["<!-", "-esi-->"]`, appending the parts emits the literal text
`"<!--esi-->"` while appending `S` whole emits `""` (the comment markers are
stripped).  The first chunk ends in the marker prefix `<!-` at buffer position
0, which `xmlStreamerBeforeProcess` refuses to postpone (`sepPos > 0`), so the
recognizer consumes it as plain text.  The environment fetches nothing; the
transformer maps the text children to themselves. -/
theorem C1_chunk_split_changes_output :
    runEsiPipeline ⟨none, fun _ => 404, fun _ => [], id, none, none⟩ 30
        [strL "<!-", strL "-esi-->"] = .ok (strL "<!--esi-->") ∧
    runEsiPipeline ⟨none, fun _ => 404, fun _ => [], id, none, none⟩ 30
        [strL "<!--esi-->"] = .ok [] ∧
    strL "<!--esi-->" ≠ ([] : List Char) := by
  refine ⟨rfl, rfl, by decide⟩

/-- C2, counterexample: a buffer consisting of the single character `<` —
which is a prefix of a tag — is classified as text (and consumed), not as
`Unknown`: the maybe-tag regex requires a name letter (or `/` and a letter)
after the `<`. -/
theorem C2_counterexample_lone_angle_is_text :
    parseXmlStringChunk (strL "<") false = .text (strL "<") [] ∧
    parseXmlStringChunk (strL "<") false ≠ .unknown (strL "<") ∧
    parseXmlStringChunk (strL "</") false = .text (strL "</") [] := by
  refine ⟨by decide, by decide, by decide⟩

theorem parseXmlName_suffix {s nm rest : List Char}
    (h : parseXmlName s = some (nm, rest)) : rest <:+ s := by
  match s with
  | [] => simp [parseXmlName] at h
  | c :: cs =>
    by_cases hc : isAlphaChar c = true
    · simp only [parseXmlName, hc, if_true, Option.some.injEq, Prod.mk.injEq] at h
      rw [← h.2]
      exact (List.drop_suffix _ _).trans (List.suffix_cons c cs)
    · simp [parseXmlName, hc] at h

theorem parseFullname_suffix {req : Bool} {s full rest : List Char}
    (h : parseFullname req s = some (full, rest)) : rest <:+ s := by
  unfold parseFullname at h
  split at h
  · cases h
  · rename_i n1 r1 h1
    have hr1 : r1 <:+ s := parseXmlName_suffix h1
    split at h
    · rename_i r2
      split at h
      · rename_i n2 r3 h2
        simp only [Option.some.injEq, Prod.mk.injEq] at h
        rw [← h.2]
        exact ((parseXmlName_suffix h2).trans (List.suffix_cons ':' r2)).trans hr1
      · split at h
        · cases h
        · simp only [Option.some.injEq, Prod.mk.injEq] at h
          rw [← h.2]
          exact hr1
    · split at h
      · cases h
      · simp only [Option.some.injEq, Prod.mk.injEq] at h
        rw [← h.2]
        exact hr1

theorem parseQuotedValue_suffix {q : Char} {r3 v w : List Char}
    (h : parseQuotedValue q r3 = some (v, w)) : w <:+ r3 := by
  unfold parseQuotedValue at h
  split at h
  · rename_i q2 r4' heq
    split at h
    · simp only [Option.some.injEq, Prod.mk.injEq] at h
      rw [← h.2]
      exact (List.suffix_cons q2 r4').trans (heq ▸ List.drop_suffix _ _)
    · cases h
  · cases h

theorem parseAttrAt_suffix {s : List Char} {kv : List Char × List Char}
    {rest : List Char} (h : parseAttrAt s = some (kv, rest)) : rest <:+ s := by
  unfold parseAttrAt at h
  split at h
  · cases h
  · rename_i full r1 h1
    have hr1 : r1 <:+ s := parseFullname_suffix h1
    split at h
    · rename_i r2
      have hr2 : r2 <:+ s := (List.suffix_cons '=' r2).trans hr1
      split at h
      · rename_i q r3
        have hr3 : r3 <:+ s := (List.suffix_cons q r3).trans hr2
        split at h
        · cases h2 : parseQuotedValue (Char.ofNat 34) r3 with
          | none => rw [h2] at h; cases h
          | some vr =>
            rw [h2] at h
            simp only [Option.map_some', Option.some.injEq, Prod.mk.injEq] at h
            rw [← h.2]
            exact (parseQuotedValue_suffix (v := vr.1) (w := vr.2)
              (by rw [h2])).trans hr3
        · split at h
          · cases h2 : parseQuotedValue squote r3 with
            | none => rw [h2] at h; cases h
            | some vr =>
              rw [h2] at h
              simp only [Option.map_some', Option.some.injEq, Prod.mk.injEq] at h
              rw [← h.2]
              exact (parseQuotedValue_suffix (v := vr.1) (w := vr.2)
                (by rw [h2])).trans hr3
          · cases h
      · cases h
    · cases h

theorem parseAttrsLoop_suffix :
    ∀ (fuel : Nat) (s : List Char) (acc : List (List Char × List Char)),
      (parseAttrsLoop fuel s acc).2 <:+ s := by
  intro fuel
  induction fuel with
  | zero => intro s acc; exact List.suffix_refl s
  | succ n ih =>
    intro s acc
    unfold parseAttrsLoop
    by_cases hws : s.takeWhile jsIsSpace = []
    · rw [if_pos hws]
    · rw [if_neg hws]
      cases ha : parseAttrAt (s.drop (s.takeWhile jsIsSpace).length) with
      | none => exact List.suffix_refl s
      | some p =>
        obtain ⟨kv, rest⟩ := p
        have h1 : rest <:+ s.drop (s.takeWhile jsIsSpace).length :=
          parseAttrAt_suffix ha
        exact (ih rest (acc ++ [kv])).trans (h1.trans (List.drop_suffix _ _))

theorem openTagTail_gt_mem {full : List Char}
    {rawAttrs : List (List Char × List Char)} {r3 : List Char} {slen : Nat}
    {tp : TagParse} (h : openTagTail full rawAttrs r3 slen = some tp) :
    '>' ∈ r3 := by
  unfold openTagTail at h
  split at h
  · next heq => simp
  · next heq => simp
  · cases h

theorem closeTagTail_gt_mem {full : List Char} {r3 : List Char} {slen : Nat}
    {tp : TagParse} (h : closeTagTail full r3 slen = some tp) : '>' ∈ r3 := by
  unfold closeTagTail at h
  split at h
  · simp
  · cases h

theorem tryOpenTag_gt_mem {req : Bool} {slen : Nat} {r0 : List Char}
    {tp : TagParse} (h : tryOpenTag req slen r0 = some tp) : '>' ∈ r0 := by
  unfold tryOpenTag at h
  cases h1 : parseFullname req r0 with
  | none => rw [h1] at h; cases h
  | some p =>
    obtain ⟨full, r1⟩ := p
    rw [h1] at h
    have hr1 : r1 <:+ r0 := parseFullname_suffix h1
    have hmem : '>' ∈ (parseAttrsLoop r1.length r1 []).2.drop
        ((parseAttrsLoop r1.length r1 []).2.takeWhile jsIsSpace).length :=
      openTagTail_gt_mem h
    have h2 : (parseAttrsLoop r1.length r1 []).2 <:+ r1 :=
      parseAttrsLoop_suffix r1.length r1 []
    exact hr1.subset (h2.subset ((List.drop_suffix _ _).subset hmem))

theorem tryCloseTag_gt_mem {req : Bool} {slen : Nat} {r1 : List Char}
    {tp : TagParse} (h : tryCloseTag req slen r1 = some tp) : '>' ∈ r1 := by
  unfold tryCloseTag at h
  cases h1 : parseFullname req r1 with
  | none => rw [h1] at h; cases h
  | some p =>
    obtain ⟨full, r2⟩ := p
    rw [h1] at h
    have hr2 : r2 <:+ r1 := parseFullname_suffix h1
    have hmem := closeTagTail_gt_mem h
    exact hr2.subset ((List.drop_suffix _ _).subset hmem)

theorem tryTagAt_gt_mem {req : Bool} {s : List Char} {tp : TagParse}
    (h : tryTagAt req s = some tp) : '>' ∈ s := by
  unfold tryTagAt at h
  split at h
  · rename_i r0
    split at h
    · rename_i tp1 h1
      exact List.mem_cons_of_mem _ (tryOpenTag_gt_mem h1)
    · split at h
      · rename_i r1
        exact List.mem_cons_of_mem _ (List.mem_cons_of_mem _ (tryCloseTag_gt_mem h))
      · cases h
  · cases h

theorem findTagMatch_none {req : Bool} :
    ∀ (fuel : Nat) (s : List Char), '>' ∉ s →
      findTagMatch req fuel s = none := by
  intro fuel
  induction fuel with
  | zero => intro s _; rfl
  | succ n ih =>
    intro s hno
    match s with
    | [] => rfl
    | c :: cs =>
      cases ht : tryTagAt req (c :: cs) with
      | some tp => exact absurd (tryTagAt_gt_mem ht) hno
      | none =>
        have h2 : '>' ∉ cs := fun hm => hno (List.mem_cons_of_mem _ hm)
        simp [findTagMatch, ht, ih cs h2]

/-- C2, amended: a buffer that begins with `<` (or `</`) followed by an ASCII
name letter and contains no `>` — an incomplete tag fragment — is classified
`Unknown` with the whole fragment left unconsumed, under either recognizer
option; but a bare trailing `<` or `</` with no following name letter is
emitted as text (see the counterexample). -/
theorem C2_incomplete_tag_unknown (s : List Char) (opts : Bool)
    (hstart : (∃ c rest, s = '<' :: c :: rest ∧ isAlphaChar c) ∨
              (∃ c rest, s = '<' :: '/' :: c :: rest ∧ isAlphaChar c))
    (hnogt : '>' ∉ s) :
    parseXmlStringChunk s opts = .unknown s := by
  have hfull : findTagMatch opts s.length s = none :=
    findTagMatch_none s.length s hnogt
  have hmaybe : tryMaybeTagAt s = true := by
    rcases hstart with ⟨c, rest, rfl, hc⟩ | ⟨c, rest, rfl, hc⟩
    · have hall : rest.all (fun x => x ≠ '>') = true := by
        rw [List.all_eq_true]
        intro x hx
        simp only [decide_eq_true_eq]
        intro hgt
        exact hnogt (by subst hgt; exact List.mem_cons_of_mem _ (List.mem_cons_of_mem _ hx))
      show ((isAlphaChar c && rest.all (fun x => x ≠ '>')) ||
        (match c :: rest with
         | '/' :: c :: rest => isAlphaChar c && rest.all (fun x => x ≠ '>')
         | _ => false)) = true
      rw [hc, hall]
      rfl
    · have hall : rest.all (fun x => x ≠ '>') = true := by
        rw [List.all_eq_true]
        intro x hx
        simp only [decide_eq_true_eq]
        intro hgt
        exact hnogt (by
          subst hgt
          exact List.mem_cons_of_mem _
            (List.mem_cons_of_mem _ (List.mem_cons_of_mem _ hx)))
      show ((isAlphaChar '/' && ('/' :: c :: rest).tail.all (fun x => x ≠ '>')) ||
        (isAlphaChar c && rest.all (fun x => x ≠ '>'))) = true
      rw [hc, hall]
      simp
  have hpos : findMaybeTagPos s.length s = some 0 := by
    rcases hstart with ⟨c, rest, rfl, _⟩ | ⟨c, rest, rfl, _⟩ <;>
      simp [findMaybeTagPos, hmaybe]
  unfold parseXmlStringChunk
  rw [hfull, hpos]
  rfl

/-- Witness for `C2_incomplete_tag_unknown` at the buffer `"<ba"` (the
repository's own test input). -/
theorem C2_incomplete_tag_unknown_witness :
    parseXmlStringChunk (strL "<ba") false = .unknown (strL "<ba") :=
  C2_incomplete_tag_unknown (strL "<ba") false
    (Or.inl ⟨'b', strL "a", rfl, by decide⟩) (by decide)

/-! ## Theorems about the transformer branches (C5, C6, C7) -/

theorem findIncludeResult_none {env : EsiEnv} :
    ∀ (srcs : List (List Char)),
      (∀ src ∈ srcs, ¬ (200 ≤ env.fetchStatus (env.resolveUrl src) ∧
        env.fetchStatus (env.resolveUrl src) < 300)) →
      findIncludeResult env srcs = none := by
  intro srcs
  induction srcs with
  | nil => intro _; rfl
  | cons src rest ih =>
    intro h
    unfold findIncludeResult
    rw [if_neg (h src (List.mem_cons_self _ _))]
    exact ih (fun s hs => h s (List.mem_cons_of_mem _ hs))

/-- C5: for an `esi:include` element all of whose candidate fetches (`src`
then `alt`) fail (no 2xx status): a configured `handleIncludeError` that sets
`customErrorString` makes that string replace the element; otherwise an
`onerror` attribute substituting to `continue` removes the element; otherwise
the transform fails with an `IncludeError` carrying the element. -/
theorem C5_include_failure_semantics (env : EsiEnv) (fuel : Nat) (av : Bool)
    (p : Option (List Char)) (a : List (List Char × XmlAttr))
    (d : List (List Char × List Char)) (cs : List XmlNode)
    (srcs : List (List Char))
    (hsrc : includeCandidates env
      (.elem p (strL "include") a d (some esiNamespaceStr) cs) = .ok srcs)
    (hfail : ∀ src ∈ srcs, ¬ (200 ≤ env.fetchStatus (env.resolveUrl src) ∧
      env.fetchStatus (env.resolveUrl src) < 300)) :
    (∀ h s, env.handleIncludeError = some h →
      h (.elem p (strL "include") a d (some esiNamespaceStr) cs) = some s →
      esiCallback env (fuel + 1) av
          (.elem p (strL "include") a d (some esiNamespaceStr) cs) =
        (.ok (some (.single (.text s))), av)) ∧
    ((env.handleIncludeError = none ∨ ∃ h, env.handleIncludeError = some h ∧
        h (.elem p (strL "include") a d (some esiNamespaceStr) cs) = none) →
      applyEsiVariables ((jsLookup a (strL "onerror")).map XmlAttr.value)
          env.vars = .ok (some (strL "continue")) →
      esiCallback env (fuel + 1) av
          (.elem p (strL "include") a d (some esiNamespaceStr) cs) =
        (.ok (some .remove), av)) ∧
    (∀ r, (env.handleIncludeError = none ∨ ∃ h, env.handleIncludeError = some h ∧
        h (.elem p (strL "include") a d (some esiNamespaceStr) cs) = none) →
      applyEsiVariables ((jsLookup a (strL "onerror")).map XmlAttr.value)
          env.vars = .ok r →
      r ≠ some (strL "continue") →
      esiCallback env (fuel + 1) av
          (.elem p (strL "include") a d (some esiNamespaceStr) cs) =
        (.error (.includeError
            (.elem p (strL "include") a d (some esiNamespaceStr) cs)
            (strL "Could not include " ++ serializeNodeFuel (fuel + 1)
              (.elem p (strL "include") a d (some esiNamespaceStr) cs))), av)) := by
  have hnone : findIncludeResult env srcs = none := findIncludeResult_none srcs hfail
  have hcb : esiCallback env (fuel + 1) av
      (.elem p (strL "include") a d (some esiNamespaceStr) cs) =
      (includeBranch env (fuel + 1)
        (.elem p (strL "include") a d (some esiNamespaceStr) cs), av) := by
    simp only [esiCallback]
    rw [if_neg (show ¬ ((some esiNamespaceStr : Option (List Char)) ≠
          some esiNamespaceStr) from by simp),
      if_neg (show ¬ (strL "include" = strL "comment") from by decide),
      if_neg (show ¬ (strL "include" = strL "remove") from by decide),
      if_pos trivial]
  refine ⟨?_, ?_, ?_⟩
  · intro h s hh hs
    rw [hcb]
    simp only [includeBranch, hsrc, hnone, hh, hs]
  · intro hh hcont
    rw [hcb]
    rcases hh with hh | ⟨h, hh, hhel⟩
    · simp only [includeBranch, hsrc, hnone, hh, XmlNode.attrs, hcont]
      rw [if_pos trivial]
    · simp only [includeBranch, hsrc, hnone, hh, hhel, XmlNode.attrs, hcont]
      rw [if_pos trivial]
  · intro r hh hr hne
    rw [hcb]
    rcases hh with hh | ⟨h, hh, hhel⟩
    · simp only [includeBranch, hsrc, hnone, hh, XmlNode.attrs, hr]
      rw [if_neg hne]
    · simp only [includeBranch, hsrc, hnone, hh, hhel, XmlNode.attrs, hr]
      rw [if_neg hne]

/-- Witness for `C5_include_failure_semantics`: a failing include with no
error handler and no `onerror` attribute raises the `IncludeError`. -/
theorem C5_include_failure_semantics_witness :
    esiCallback ⟨none, fun _ => 404, fun _ => [], id, none, none⟩ 5 false
        (.elem (some (strL "esi")) (strL "include")
          [(strL "src", ⟨strL "src", none, some none, strL "/x"⟩)] []
          (some esiNamespaceStr) []) =
      (.error (.includeError
          (.elem (some (strL "esi")) (strL "include")
            [(strL "src", ⟨strL "src", none, some none, strL "/x"⟩)] []
            (some esiNamespaceStr) [])
          (strL "Could not include " ++ serializeNodeFuel 5
            (.elem (some (strL "esi")) (strL "include")
              [(strL "src", ⟨strL "src", none, some none, strL "/x"⟩)] []
              (some esiNamespaceStr) []))), false) :=
  (C5_include_failure_semantics ⟨none, fun _ => 404, fun _ => [], id, none, none⟩
      4 false (some (strL "esi"))
      [(strL "src", ⟨strL "src", none, some none, strL "/x"⟩)] [] []
      [strL "/x"] (by rfl)
      (by intro src hs; simp at hs; subst hs; decide)).2.2
    none (Or.inl rfl) (by rfl) (by decide)

/-- C6: for an `esi:try` with exactly one direct `esi:attempt` and exactly
one direct `esi:except` child (as found by the source's filters), the attempt
children are transformed first (with `applyVars` enabled); exactly when that
raises an `IncludeError` the except children's transform result is used
instead; any other error propagates; and the previous `applyVars` value is
restored on exit in all cases. -/
theorem C6_try_semantics (env : EsiEnv) (fuel : Nat) (av : Bool)
    (p : Option (List Char)) (a : List (List Char × XmlAttr))
    (d : List (List Char × List Char)) (cs : List XmlNode)
    (attemptTag exceptTag : XmlNode)
    (hAtt : cs.filter (isEsiTag (strL "attempt")) = [attemptTag])
    (hExc : cs.filter (isEsiTag (strL "except")) = [exceptTag]) :
    (∀ results av1,
      transformChildElements env fuel true attemptTag.children = (.ok results, av1) →
      esiCallback env (fuel + 1) av
          (.elem p (strL "try") a d (some esiNamespaceStr) cs) =
        (.ok (some (.many results)), av)) ∧
    (∀ el1 msg av1,
      transformChildElements env fuel true attemptTag.children =
        (.error (.includeError el1 msg), av1) →
      esiCallback env (fuel + 1) av
          (.elem p (strL "try") a d (some esiNamespaceStr) cs) =
        (match transformChildElements env fuel av1 exceptTag.children with
         | (.ok results, _) => (.ok (some (.many results)), av)
         | (.error e2, _) => (.error e2, av))) ∧
    (∀ e av1,
      transformChildElements env fuel true attemptTag.children = (.error e, av1) →
      (∀ el1 msg, e ≠ .includeError el1 msg) →
      esiCallback env (fuel + 1) av
          (.elem p (strL "try") a d (some esiNamespaceStr) cs) =
        (.error e, av)) := by
  have hcb : esiCallback env (fuel + 1) av
      (.elem p (strL "try") a d (some esiNamespaceStr) cs) =
      (match transformChildElements env fuel true attemptTag.children with
       | (.ok results, _) => (.ok (some (.many results)), av)
       | (.error e, av1) =>
         match e with
         | .includeError _ _ =>
           match transformChildElements env fuel av1 exceptTag.children with
           | (.ok results, _) => (.ok (some (.many results)), av)
           | (.error e2, _) => (.error e2, av)
         | _ => (.error e, av)) := by
    simp only [esiCallback]
    rw [if_neg (show ¬ ((some esiNamespaceStr : Option (List Char)) ≠
          some esiNamespaceStr) from by simp),
      if_neg (show ¬ (strL "try" = strL "comment") from by decide),
      if_neg (show ¬ (strL "try" = strL "remove") from by decide),
      if_neg (show ¬ (strL "try" = strL "include") from by decide),
      if_pos trivial]
    rw [hAtt, hExc]
  refine ⟨?_, ?_, ?_⟩
  · intro results av1 hres
    rw [hcb, hres]
  · intro el1 msg av1 hres
    rw [hcb, hres]
  · intro e av1 hres hne
    rw [hcb, hres]
    cases e with
    | includeError el1 m => exact absurd rfl (hne el1 m)
    | structureError el1 m => rfl
    | jsError m => rfl
    | fuelExhausted => rfl

/-- Witness for `C6_try_semantics`: an attempt whose children transform
cleanly is used as the replacement, with `applyVars` restored. -/
theorem C6_try_semantics_witness :
    esiCallback ⟨none, fun _ => 404, fun _ => [], id, none, none⟩ 5 false
        (.elem (some (strL "esi")) (strL "try") [] [] (some esiNamespaceStr)
          [.elem (some (strL "esi")) (strL "attempt") [] [] (some esiNamespaceStr)
            [.text (strL "A")],
           .elem (some (strL "esi")) (strL "except") [] [] (some esiNamespaceStr)
            [.text (strL "E")]]) =
      (.ok (some (.many [.text (strL "A")])), false) :=
  (C6_try_semantics ⟨none, fun _ => 404, fun _ => [], id, none, none⟩ 4 false
      (some (strL "esi")) [] []
      [.elem (some (strL "esi")) (strL "attempt") [] [] (some esiNamespaceStr)
        [.text (strL "A")],
       .elem (some (strL "esi")) (strL "except") [] [] (some esiNamespaceStr)
        [.text (strL "E")]]
      (.elem (some (strL "esi")) (strL "attempt") [] [] (some esiNamespaceStr)
        [.text (strL "A")])
      (.elem (some (strL "esi")) (strL "except") [] [] (some esiNamespaceStr)
        [.text (strL "E")])
      (by rfl) (by rfl)).1
    [.text (strL "A")] true (by rfl)

theorem findActiveWhen_all_false {vars : Option VarsFn} :
    ∀ (ws : List XmlNode),
      (∀ w ∈ ws, esiEvaluate vars (((jsLookup w.attrs (strL "test")).map
        XmlAttr.value).getD []) = .ok false) →
      findActiveWhen vars ws = .ok none := by
  intro ws
  induction ws with
  | nil => intro _; rfl
  | cons w rest ih =>
    intro h
    unfold findActiveWhen
    rw [h w (List.mem_cons_self _ _)]
    exact ih (fun x hx => h x (List.mem_cons_of_mem _ hx))

theorem findActiveWhen_first_true {vars : Option VarsFn} :
    ∀ (pre : List XmlNode) (w : XmlNode) (post : List XmlNode),
      (∀ x ∈ pre, esiEvaluate vars (((jsLookup x.attrs (strL "test")).map
        XmlAttr.value).getD []) = .ok false) →
      esiEvaluate vars (((jsLookup w.attrs (strL "test")).map
        XmlAttr.value).getD []) = .ok true →
      findActiveWhen vars (pre ++ w :: post) = .ok (some w) := by
  intro pre
  induction pre with
  | nil =>
    intro w post _ hw
    rw [List.nil_append]
    simp [findActiveWhen, hw]
  | cons x rest ih =>
    intro w post hpre hw
    rw [List.cons_append]
    have hx := hpre x (List.mem_cons_self _ _)
    simp only [findActiveWhen, hx]
    rw [if_neg (show ¬ (false = true) from by decide)]
    exact ih w post (fun y hy => hpre y (List.mem_cons_of_mem _ hy)) hw

/-- C7: for an `esi:choose` (at least one direct `esi:when`, all with `test`
attributes, at most one `esi:otherwise`): the `when` tests are evaluated in
document order and the element is replaced by the transform of the children of
the first `when` whose test evaluates true; with none true, by the
`otherwise`'s children when present; and with none true and no `otherwise`
the element is removed. -/
theorem C7_choose_semantics (env : EsiEnv) (fuel : Nat) (av : Bool)
    (p : Option (List Char)) (a : List (List Char × XmlAttr))
    (d : List (List Char × List Char)) (cs : List XmlNode)
    (htest : ∀ w ∈ cs.filter (isEsiTag (strL "when")),
      jsLookup w.attrs (strL "test") ≠ none)
    (hoth : (cs.filter (isEsiTag (strL "otherwise"))).length ≤ 1) :
    (∀ pre w post,
      cs.filter (isEsiTag (strL "when")) = pre ++ w :: post →
      (∀ x ∈ pre, esiEvaluate env.vars (((jsLookup x.attrs (strL "test")).map
        XmlAttr.value).getD []) = .ok false) →
      esiEvaluate env.vars (((jsLookup w.attrs (strL "test")).map
        XmlAttr.value).getD []) = .ok true →
      esiCallback env (fuel + 1) av
          (.elem p (strL "choose") a d (some esiNamespaceStr) cs) =
        (match transformChildElements env fuel true w.children with
         | (.ok results, _) => (.ok (some (.many results)), av)
         | (.error e, _) => (.error e, av))) ∧
    ((cs.filter (isEsiTag (strL "when"))).length ≠ 0 →
      (∀ w ∈ cs.filter (isEsiTag (strL "when")),
        esiEvaluate env.vars (((jsLookup w.attrs (strL "test")).map
          XmlAttr.value).getD []) = .ok false) →
      ∀ o, cs.filter (isEsiTag (strL "otherwise")) = [o] →
      esiCallback env (fuel + 1) av
          (.elem p (strL "choose") a d (some esiNamespaceStr) cs) =
        (match transformChildElements env fuel true o.children with
         | (.ok results, _) => (.ok (some (.many results)), av)
         | (.error e, _) => (.error e, av))) ∧
    ((cs.filter (isEsiTag (strL "when"))).length ≠ 0 →
      (∀ w ∈ cs.filter (isEsiTag (strL "when")),
        esiEvaluate env.vars (((jsLookup w.attrs (strL "test")).map
          XmlAttr.value).getD []) = .ok false) →
      cs.filter (isEsiTag (strL "otherwise")) = [] →
      esiCallback env (fuel + 1) av
          (.elem p (strL "choose") a d (some esiNamespaceStr) cs) =
        (.ok (some .remove), av)) := by
  have hcb :
      esiCallback env (fuel + 1) av
        (.elem p (strL "choose") a d (some esiNamespaceStr) cs) =
      (if (cs.filter (isEsiTag (strL "when"))).length = 0 then
        (.error (.structureError
          (.elem p (strL "choose") a d (some esiNamespaceStr) cs)
          (strL "esi:choose must have at least one esi:when as direct child")), av)
      else if (cs.filter (isEsiTag (strL "when"))).any
          (fun w => jsLookup w.attrs (strL "test") = none) then
        (.error (.structureError
          (.elem p (strL "choose") a d (some esiNamespaceStr) cs)
          (strL "esi:when tags are required to have a test attribute.")), av)
      else if (cs.filter (isEsiTag (strL "otherwise"))).length > 1 then
        (.error (.structureError
          (.elem p (strL "choose") a d (some esiNamespaceStr) cs)
          (strL "esi:choose must not have more than one esi:otherwise")), av)
      else
        match findActiveWhen env.vars (cs.filter (isEsiTag (strL "when"))) with
        | .error e => (.error (.jsError e), av)
        | .ok active? =>
          match (match active? with
                 | some w => some w
                 | none => (cs.filter (isEsiTag (strL "otherwise"))).head? :
                   Option XmlNode) with
          | none => (.ok (some .remove), av)
          | some branch =>
            match transformChildElements env fuel true branch.children with
            | (.ok results, _) => (.ok (some (.many results)), av)
            | (.error e, _) => (.error e, av)) := by
    simp only [esiCallback]
    rw [if_neg (show ¬ ((some esiNamespaceStr : Option (List Char)) ≠
          some esiNamespaceStr) from by simp),
      if_neg (show ¬ (strL "choose" = strL "comment") from by decide),
      if_neg (show ¬ (strL "choose" = strL "remove") from by decide),
      if_neg (show ¬ (strL "choose" = strL "include") from by decide),
      if_neg (show ¬ (strL "choose" = strL "try") from by decide),
      if_neg (show ¬ (strL "choose" = strL "attempt") from by decide),
      if_neg (show ¬ (strL "choose" = strL "except") from by decide),
      if_neg (show ¬ (strL "choose" = strL "vars") from by decide),
      if_pos trivial]
  have hany : ¬ ((cs.filter (isEsiTag (strL "when"))).any
      (fun w => jsLookup w.attrs (strL "test") = none) = true) := by
    rw [Bool.not_eq_true, List.any_eq_false]
    intro w hw
    simpa using htest w hw
  have hgt : ¬ ((cs.filter (isEsiTag (strL "otherwise"))).length > 1) := by
    omega
  refine ⟨?_, ?_, ?_⟩
  · intro pre w post hsplit hpre hw
    rw [hcb]
    have hne : ¬ ((cs.filter (isEsiTag (strL "when"))).length = 0) := by
      rw [hsplit]
      simp
    rw [if_neg hne, if_neg hany, if_neg hgt]
    rw [hsplit, findActiveWhen_first_true pre w post hpre hw]
  · intro hne0 hall o ho
    rw [hcb]
    rw [if_neg hne0, if_neg hany, if_neg hgt]
    rw [findActiveWhen_all_false _ hall, ho]
    rfl
  · intro hne0 hall ho
    rw [hcb]
    rw [if_neg hne0, if_neg hany, if_neg hgt]
    rw [findActiveWhen_all_false _ hall, ho]
    rfl

/-- Witness for `C7_choose_semantics`: a single `when` with the test `1==1`
selects that branch. -/
theorem C7_choose_semantics_witness :
    esiCallback ⟨none, fun _ => 404, fun _ => [], id, none, none⟩ 5 false
        (.elem (some (strL "esi")) (strL "choose") [] [] (some esiNamespaceStr)
          [.elem (some (strL "esi")) (strL "when")
            [(strL "test", ⟨strL "test", none, some none, strL "1==1"⟩)] []
            (some esiNamespaceStr) [.text (strL "W")]]) =
      (.ok (some (.many [.text (strL "W")])), false) := by
  have h := (C7_choose_semantics ⟨none, fun _ => 404, fun _ => [], id, none, none⟩
      4 false (some (strL "esi")) [] []
      [.elem (some (strL "esi")) (strL "when")
        [(strL "test", ⟨strL "test", none, some none, strL "1==1"⟩)] []
        (some esiNamespaceStr) [.text (strL "W")]]
      (by decide)
      (by decide)).1
    [] (.elem (some (strL "esi")) (strL "when")
        [(strL "test", ⟨strL "test", none, some none, strL "1==1"⟩)] []
        (some esiNamespaceStr) [.text (strL "W")]) []
    (by rfl) (by intro x hx; cases hx) (by rfl)
  rw [h]
  rfl

end CJEsi
